import Mathlib

set_option maxRecDepth 8000

/-!
Verification development for the VSTScanningTool repository.

Strings are modelled at the level of their character lists.  Python string
primitives (strip, lower, upper, substring containment, regex substitutions
of the fixed character-class patterns used by the tool) are embedded as
executable functions over ASCII characters; the scanner only ever feeds them
ASCII table keys and file names, and all concrete inputs used in witnesses
and counterexamples below are ASCII.
-/

namespace VST

/-- Characters treated as whitespace by the Python str.strip and the regex
class used in the source (ASCII fragment). -/
def pyIsSpace (c : Char) : Bool :=
  c == ' ' || c == '\t' || c == '\n' || c == '\x0d' || c == '\x0b' || c == '\x0c'

/-- Lowercasing of a single character, as Python str.lower acts on ASCII. -/
def plowerC (c : Char) : Char :=
  if 65 ≤ c.toNat ∧ c.toNat ≤ 90 then Char.ofNat (c.toNat + 32) else c

/-- Uppercasing of a single character, as Python str.upper acts on ASCII. -/
def pupperC (c : Char) : Char :=
  if 97 ≤ c.toNat ∧ c.toNat ≤ 122 then Char.ofNat (c.toNat - 32) else c

/-- Lowercase a character list. -/
def plower (l : List Char) : List Char := l.map plowerC

/-- Uppercase a character list. -/
def pupper (l : List Char) : List Char := l.map pupperC

/-- Drop trailing characters satisfying a predicate. -/
def dropTrail (p : Char → Bool) (l : List Char) : List Char :=
  (l.reverse.dropWhile p).reverse

/-- Python str.strip on a character list: remove leading and trailing
whitespace. -/
def pstrip (l : List Char) : List Char :=
  dropTrail pyIsSpace (l.dropWhile pyIsSpace)

/-- Substring test, modelling the Python operator in on strings. -/
def containsSub (pat : List Char) : List Char → Bool
  | [] => pat.isEmpty
  | c :: rest => pat.isPrefixOf (c :: rest) || containsSub pat rest

/-- Lexicographic comparison of character lists by code point, the order
Python uses to compare strings. -/
def listLt : List Char → List Char → Bool
  | [], [] => false
  | [], _ :: _ => true
  | _ :: _, [] => false
  | a :: as, b :: bs =>
    if a < b then true
    else if a = b then listLt as bs
    else false

/-- Strict comparison of strings as Python compares them. -/
def strLt (a b : String) : Bool := listLt a.data b.data

/-- Worker for collapseRuns, carrying a flag that records whether the scan is
currently inside a run of matched characters. -/
def collapseAux (p : Char → Bool) (r : Char) (inRun : Bool) : List Char → List Char
  | [] => []
  | c :: rest =>
    if p c then
      if inRun then collapseAux p r true rest
      else r :: collapseAux p r true rest
    else c :: collapseAux p r false rest

/-- Replace every maximal run of characters matched by p with the single
character r.  This models re.sub applied with a pattern of the shape
[class]+ and a one-character replacement. -/
def collapseRuns (p : Char → Bool) (r : Char) (l : List Char) : List Char :=
  collapseAux p r false l

/-- Worker for splitRuns, accumulating the current token in reverse. -/
def splitAux (p : Char → Bool) (inRun : Bool) (cur : List Char) :
    List Char → List (List Char)
  | [] => [cur.reverse]
  | c :: rest =>
    if p c then
      if inRun then splitAux p true [] rest
      else cur.reverse :: splitAux p true [] rest
    else splitAux p false (c :: cur) rest

/-- Split on maximal runs of separator characters, modelling re.split with a
pattern of the shape [class]+ (empty pieces are kept at the two ends exactly
as re.split produces them). -/
def splitRuns (p : Char → Bool) (l : List Char) : List (List Char) :=
  splitAux p false [] l

/-- Worker for replaceSub; the fuel argument starts at the length of the
scanned list and therefore never runs out for a non-empty pattern. -/
def replaceSubAux (pat rep : List Char) : Nat → List Char → List Char
  | 0, l => l
  | fuel + 1, l =>
    if pat.isPrefixOf l && !pat.isEmpty then
      rep ++ replaceSubAux pat rep fuel (l.drop pat.length)
    else
      match l with
      | [] => []
      | c :: rest => c :: replaceSubAux pat rep fuel rest

/-- Replacement of every occurrence of a fixed pattern, modelling Python
str.replace scanning left to right over non-overlapping occurrences. -/
def replaceSub (pat rep : List Char) (l : List Char) : List Char :=
  if pat.isEmpty then l else replaceSubAux pat rep l.length l

/-- String-level wrapper for lowercasing. -/
def pyLower (s : String) : String := ⟨plower s.data⟩

/-- String-level wrapper for uppercasing. -/
def pyUpper (s : String) : String := ⟨pupper s.data⟩

/-- String-level wrapper for stripping. -/
def pyStrip (s : String) : String := ⟨pstrip s.data⟩

/-- String-level wrapper for the Python substring operator. -/
def pyIn (pat s : String) : Bool := containsSub pat.data s.data

/-- String-level wrapper for Python str.replace. -/
def pyReplace (s pat rep : String) : String := ⟨replaceSub pat.data rep.data s.data⟩

/-- Truthiness of an optional string in Python: present and non-empty. -/
def pyTruthyOpt : Option String → Bool
  | none => false
  | some s => s ≠ ""

/-- Python idiom value or default, used for falling back on the empty
string. -/
def pyOrS (v dflt : String) : String := if v = "" then dflt else v

/-- Lookup in an association list modelling a Python dict with unique keys. -/
def dlookup (d : List (String × String)) (k : String) : Option String :=
  (d.find? (fun p => p.1 == k)).map (·.2)

/-- Python dict.get with a default value. -/
def pyGetD (d : List (String × String)) (k dflt : String) : String :=
  (dlookup d k).getD dflt

/-- Merge of two Python dicts written {**a, **b}: keys of a first in order,
values of b win on collision, fresh keys of b appended in order. -/
def dictUnion (a b : List (String × String)) : List (String × String) :=
  b.foldl
    (fun acc kv =>
      if acc.any (fun p => p.1 == kv.1) then
        acc.map (fun p => if p.1 == kv.1 then (p.1, kv.2) else p)
      else acc ++ [kv])
    a

/-!
Embedding of src/vst_scanning_tool/models.py.
-/

/-- PluginRecord from models.py.  The filesystem path is modelled as a plain
string. -/
structure PluginRecord where
  name : String
  manufacturer : String
  plugin_type : String
  path : String
  identifier : Option String := none
  version : Option String := none
  extra : List (String × String) := []
  deriving DecidableEq, Repr

/-- Helper clean from models.py: value.strip().lower(). -/
def pclean (value : String) : String := pyLower (pyStrip value)

/-- Dedup key of a record, PluginRecord.key from models.py. -/
def PluginRecord.key (r : PluginRecord) : String × String × String :=
  (pyUpper r.plugin_type, pclean r.manufacturer, pclean r.name)

/-- Richer-text heuristic from models.py. -/
def isRicherText (candidate current : String) : Bool :=
  if candidate = "" then false
  else if current = "" then true
  else (pyStrip candidate).length > (pyStrip current).length

/-- PluginRecord.merge from models.py.  The Python method mutates self and
returns it; here the updated record is returned. -/
def PluginRecord.merge (self other : PluginRecord) : PluginRecord :=
  let identifier :=
    if self.identifier.isNone && pyTruthyOpt other.identifier then other.identifier
    else self.identifier
  let version :=
    if self.version.isNone && pyTruthyOpt other.version then other.version
    else self.version
  let manufacturer :=
    if isRicherText other.manufacturer self.manufacturer then other.manufacturer
    else self.manufacturer
  let name :=
    if isRicherText other.name self.name then other.name
    else self.name
  { self with
    identifier := identifier
    version := version
    manufacturer := manufacturer
    name := name
    extra := dictUnion other.extra self.extra }

/-!
Embedding of src/vst_scanning_tool/normalizer.py.  A ManufacturerNormalizer
is represented by its alias dict, an association list with unique keys; the
constructor builds it from the built-in table, lowercasing keys and merging
caller-supplied extra aliases on top.
-/

/-- Built-in alias table of ManufacturerNormalizer with keys lowercased, as
the constructor stores it. -/
def defaultAliases : List (String × String) :=
  [("sonible", "Sonible"),
   ("sonible gmbh", "Sonible"),
   ("plugin alliance", "Plugin Alliance"),
   ("brainworx", "Brainworx (Plugin Alliance)"),
   ("bx", "Brainworx (Plugin Alliance)"),
   ("2caudio", "2CAudio"),
   ("acustica", "Acustica Audio"),
   ("acustica audio", "Acustica Audio"),
   ("u-he", "u-he"),
   ("softube", "Softube"),
   ("izotope", "iZotope")]

/-- Constructor of ManufacturerNormalizer: built-in aliases, updated with the
extra aliases (keys lowercased, collisions overwritten in place). -/
def mkAliases (extra : Option (List (String × String))) : List (String × String) :=
  match extra with
  | none => defaultAliases
  | some es => dictUnion defaultAliases (es.map (fun p => (pyLower p.1, p.2)))

/-- Separator class of the token split in normalize_manufacturer: whitespace,
vertical bar, slash and hyphen. -/
def mfrSep (c : Char) : Bool := pyIsSpace c || c == '|' || c == '/' || c == '-'

/-- ManufacturerNormalizer.normalize_manufacturer from normalizer.py. -/
def normalizeManufacturer (aliases : List (String × String))
    (manufacturer : String) (plugin_name : Option String) : String :=
  let candidate := pyStrip manufacturer
  let lowered := pyLower candidate
  let tableResult :=
    match dlookup aliases lowered with
    | some v => v
    | none =>
      match (splitRuns mfrSep candidate.data).findSome?
          (fun tok => dlookup aliases (pyLower ⟨tok⟩)) with
      | some v => v
      | none => if candidate = "" then "Unknown" else candidate
  if pyTruthyOpt plugin_name then
    let pn := plugin_name.getD ""
    if "bx_".data.isPrefixOf (pyLower pn).data then "Brainworx (Plugin Alliance)"
    else if pyIn "sonible" (pyLower pn) then "Sonible"
    else tableResult
  else tableResult

/-- Character class of the second substitution in normalize_plugin_name:
underscore and hyphen. -/
def underscoreHyphen (c : Char) : Bool := c == '_' || c == '-'

/-- ManufacturerNormalizer.normalize_plugin_name from normalizer.py. -/
def normalizePluginName (plugin_name : String) : String :=
  let pn := pyStrip plugin_name
  let cleaned : String := ⟨collapseRuns pyIsSpace ' ' pn.data⟩
  let cleaned : String := ⟨collapseRuns underscoreHyphen ' ' cleaned.data⟩
  let cleaned := pyStrip (pyReplace cleaned "Â®" "")
  if cleaned = "" then "Unknown Plugin" else cleaned

/-- NormalizedIdentity from normalizer.py. -/
structure NormalizedIdentity where
  manufacturer : String
  plugin_name : String
  plugin_type : String
  deriving DecidableEq, Repr

/-- ManufacturerNormalizer.identity from normalizer.py. -/
def identity (aliases : List (String × String))
    (manufacturer plugin_name plugin_type : String) : NormalizedIdentity :=
  { manufacturer := normalizeManufacturer aliases manufacturer (some plugin_name)
    plugin_name := normalizePluginName plugin_name
    plugin_type := pyUpper plugin_type }

/-- Dedup key computed inside ManufacturerNormalizer.deduplicate. -/
def dedupKeyOf (i : NormalizedIdentity) : String × String × String :=
  (i.plugin_type, pyLower i.manufacturer, pyLower i.plugin_name)

/-- Step of ManufacturerNormalizer.deduplicate for one record: canonicalize
the record fields, then either insert it under its key or merge it into the
record already stored for that key.  The accumulator models the insertion
ordered Python dict. -/
def dedupStep (aliases : List (String × String))
    (acc : List ((String × String × String) × PluginRecord)) (r : PluginRecord) :
    List ((String × String × String) × PluginRecord) :=
  let i := identity aliases r.manufacturer r.name r.plugin_type
  let r' := { r with
    manufacturer := i.manufacturer
    name := i.plugin_name
    plugin_type := i.plugin_type }
  let key := dedupKeyOf i
  if acc.any (fun p => p.1 = key) then
    acc.map (fun p => if p.1 = key then (p.1, p.2.merge r') else p)
  else acc ++ [(key, r')]

/-- ManufacturerNormalizer.deduplicate from normalizer.py. -/
def deduplicate (aliases : List (String × String)) (records : List PluginRecord) :
    List PluginRecord :=
  (records.foldl (dedupStep aliases) []).map (·.2)


/-!
Embedding of the tables and matching logic of src/vst_scanning_tool/vstscan.py.
The three lookup tables are transcribed with Python dict literal semantics
applied: for a duplicated key the first occurrence keeps its position and the
last occurrence supplies the value.
-/

def nameMap : List (String × String) := [
  ("auto-tune", "Antares"), ("autotune", "Antares"),
  ("efx", "Antares"), ("throat", "Antares"),
  ("harmony engine", "Antares"), ("mic mod", "Antares"),
  ("avox", "Antares"), ("choir", "Antares"),
  ("articulator", "Antares"), ("aspire", "Antares"),
  ("duo", "Antares"), ("mutator", "Antares"),
  ("warm", "Antares"), ("punch", "Rob Papen"),
  ("sybil", "Antares"), ("auto-tune vocal eq", "Antares"),
  ("vocal eq", "Antares"), ("ozone", "iZotope"),
  ("neutron", "iZotope"), ("nectar", "iZotope"),
  ("rx", "iZotope"), ("neoverb", "iZotope"),
  ("trash", "iZotope"), ("relay", "iZotope"),
  ("insight", "iZotope"), ("vocal synth", "iZotope"),
  ("vocalsynth", "iZotope"), ("stutter edit", "iZotope"),
  ("iris", "iZotope"), ("breaktweaker", "iZotope"),
  ("ddly", "iZotope"), ("mobius", "iZotope"),
  ("vinyl", "iZotope"), ("spectral shaper", "iZotope"),
  ("dialogue match", "iZotope"), ("audiolens", "iZotope"),
  ("tonal balance", "iZotope"), ("master rebalance", "iZotope"),
  ("lowender", "iZotope"), ("stratus", "iZotope"),
  ("symphony", "iZotope"), ("pro-q", "FabFilter"),
  ("pro-c", "FabFilter"), ("pro-l", "FabFilter"),
  ("pro-r", "FabFilter"), ("pro-mb", "FabFilter"),
  ("pro-ds", "FabFilter"), ("pro-g", "FabFilter"),
  ("saturn", "FabFilter"), ("timeless", "FabFilter"),
  ("volcano", "FabFilter"), ("twin", "FabFilter"),
  ("micro", "FabFilter"), ("simplon", "FabFilter"),
  ("one", "FabFilter"), ("abbey road", "Waves"),
  ("api", "Waves"), ("ssl", "Waves"),
  ("cla", "Waves"), ("h-delay", "Waves"),
  ("h-comp", "Waves"), ("h-reverb", "Waves"),
  ("l1", "Waves"), ("l2", "Waves"),
  ("l3", "Waves"), ("linear phase", "Waves"),
  ("maxbass", "Waves"), ("maxxbass", "Waves"),
  ("manny marroquin", "Waves"), ("c1", "Waves"),
  ("c4", "Waves"), ("c6", "Waves"),
  ("dbx", "Waves"), ("deesser", "Waves"),
  ("doubler", "Waves"), ("enigma", "Waves"),
  ("gtr", "Waves"), ("kramer", "Waves"),
  ("metaflanger", "Waves"), ("mondomod", "Waves"),
  ("morphoder", "Waves"), ("nx", "Waves"),
  ("prs", "Waves"), ("puigchild", "Waves"),
  ("puigtec", "Waves"), ("q10", "Waves"),
  ("r-bass", "Waves"), ("rbass", "Waves"),
  ("rvox", "Waves"), ("s1", "Waves"),
  ("scheps", "Waves"), ("sibilance", "Waves"),
  ("supertap", "Waves"), ("trans-x", "Waves"),
  ("trueverb", "Waves"), ("ultramaximizer", "Waves"),
  ("vitamin", "Waves"), ("vocal rider", "Waves"),
  ("vocalrider", "Waves"), ("waveslink", "Waves"),
  ("z-noise", "Waves"), ("torque", "Waves"),
  ("brauer", "Waves"), ("cobalt", "Waves"),
  ("clarity", "Waves"), ("cosmos", "Waves"),
  ("magma", "Waves"), ("smack", "Waves"),
  ("platinum", "Waves"), ("diamond", "Acustica Audio"),
  ("gold", "Acustica Audio"), ("renaissance", "Waves"),
  ("v-series", "Waves"), ("waves tune", "Waves"),
  ("wavestune", "Waves"), ("valhalla", "Valhalla DSP"),
  ("valhallaroom", "Valhalla DSP"), ("valhallaplate", "Valhalla DSP"),
  ("valhallavintage", "Valhalla DSP"), ("valhallashimmer", "Valhalla DSP"),
  ("valhalladelay", "Valhalla DSP"), ("valhallasupermassive", "Valhalla DSP"),
  ("valhallafreqecho", "Valhalla DSP"), ("valhallaspacemods", "Valhalla DSP"),
  ("valhallaubermod", "Valhalla DSP"), ("decapitator", "Soundtoys"),
  ("echoboy", "Soundtoys"), ("crystallizer", "Soundtoys"),
  ("microshift", "Soundtoys"), ("panman", "Soundtoys"),
  ("tremolator", "Soundtoys"), ("filterfreak", "Soundtoys"),
  ("phasemistress", "Soundtoys"), ("primaltap", "Soundtoys"),
  ("radiator", "Soundtoys"), ("devil-loc", "Soundtoys"),
  ("devloc", "Soundtoys"), ("little plate", "Soundtoys"),
  ("littleplate", "Soundtoys"), ("sie-q", "Soundtoys"),
  ("alterboy", "Soundtoys"), ("effect rack", "Soundtoys"),
  ("bx_", "Plugin Alliance"), ("brainworx", "Plugin Alliance"),
  ("elysia", "Plugin Alliance"), ("lindell", "Plugin Alliance"),
  ("millennia", "Plugin Alliance"), ("neold", "Plugin Alliance"),
  ("shadow hills", "Plugin Alliance"), ("spl", "Plugin Alliance"),
  ("unfiltered audio", "Plugin Alliance"), ("megasingle", "Plugin Alliance"),
  ("uad", "Universal Audio"), ("neve", "Universal Audio"),
  ("studer", "Universal Audio"), ("lexicon", "Universal Audio"),
  ("emt", "Universal Audio"), ("pultec", "Universal Audio"),
  ("fairchild", "Universal Audio"), ("la-2a", "Universal Audio"),
  ("1176", "Universal Audio"), ("oxide", "Universal Audio"),
  ("capitol chambers", "Universal Audio"), ("galaxy tape", "Universal Audio"),
  ("ocean way", "Universal Audio"), ("spartan", "Universal Audio"),
  ("kontakt", "Native Instruments"), ("massive", "Native Instruments"),
  ("reaktor", "Native Instruments"), ("guitar rig", "Native Instruments"),
  ("battery", "Native Instruments"), ("fm8", "Native Instruments"),
  ("absynth", "Native Instruments"), ("maschine", "Native Instruments"),
  ("razor", "Native Instruments"), ("monark", "Native Instruments"),
  ("replika", "Native Instruments"), ("molekular", "Native Instruments"),
  ("driver", "Native Instruments"), ("supercharger", "Native Instruments"),
  ("solid", "Native Instruments"), ("transient master", "Native Instruments"),
  ("komplete", "Native Instruments"), ("kinetic", "Native Instruments"),
  ("session guitarist", "Native Instruments"), ("session horns", "Native Instruments"),
  ("session strings", "Native Instruments"), ("symphony series", "Native Instruments"),
  ("analog lab", "Arturia"), ("pigments", "Arturia"),
  ("mini v", "Arturia"), ("prophet", "Arturia"),
  ("jupiter", "Arturia"), ("cs-80", "Arturia"),
  ("matrix-12", "Arturia"), ("dx7", "Arturia"),
  ("synclavier", "Arturia"), ("cmi", "Arturia"),
  ("buchla", "Arturia"), ("mellotron", "Arturia"),
  ("piano v", "Arturia"), ("stage-73", "Arturia"),
  ("wurli", "Arturia"), ("farfisa", "Arturia"),
  ("vox continental", "Arturia"), ("b-3", "Arturia"),
  ("comp vca", "Arturia"), ("comp tube", "Arturia"),
  ("comp fet", "Arturia"), ("pre 1973", "Arturia"),
  ("pre trida", "Arturia"), ("delay tape", "Arturia"),
  ("reverb plate", "Arturia"), ("rev intensity", "Arturia"),
  ("bus force", "Arturia"), ("efx fragments", "Arturia"),
  ("augmented", "Arturia"), ("console 1", "Softube"),
  ("harmonics", "Softube"), ("modular", "Softube"),
  ("tsar", "Softube"), ("amp room", "Softube"),
  ("model 72", "Softube"), ("weiss", "Softube"),
  ("summit audio", "Softube"), ("fix", "Softube"),
  ("saturation knob", "Softube"), ("heartbeat", "Softube"),
  ("parallels", "Softube"), ("virtual tape", "Slate Digital"),
  ("virtual console", "Slate Digital"), ("virtual mix rack", "Slate Digital"),
  ("vmr", "Slate Digital"), ("vms", "Slate Digital"),
  ("vbc", "Slate Digital"), ("vcc", "Slate Digital"),
  ("fg-x", "Slate Digital"), ("fg-mu", "Slate Digital"),
  ("fg-116", "Slate Digital"), ("fg-401", "Slate Digital"),
  ("fg-n", "Slate Digital"), ("fg-s", "Slate Digital"),
  ("fresh air", "Slate Digital"), ("revival", "Slate Digital"),
  ("eiosis", "Slate Digital"), ("airtex", "Slate Digital"),
  ("infinity eq", "Slate Digital"), ("lustrous plates", "LiquidSonics"),
  ("verbsuite", "Slate Digital"), ("metaverb", "Slate Digital"),
  ("h3000", "Eventide"), ("h910", "Eventide"),
  ("h949", "Eventide"), ("instant phaser", "Eventide"),
  ("instant flanger", "Eventide"), ("omnipressor", "Eventide"),
  ("ultratap", "Eventide"), ("blackhole", "Eventide"),
  ("mangledverb", "Eventide"), ("micropitch", "Eventide"),
  ("quadravox", "Eventide"), ("rotary mod", "Eventide"),
  ("shimmerverb", "Eventide"), ("sp2016", "Eventide"),
  ("physion", "Eventide"), ("fission", "Eventide"),
  ("spliteq", "Eventide"), ("tverb", "Eventide"),
  ("undulator", "Eventide"), ("crystals", "Eventide"),
  ("melodyne", "Celemony"), ("oxford", "Sonnox"),
  ("inflator", "Sonnox"), ("supressor", "Sonnox"),
  ("envolution", "Sonnox"), ("claro", "Sonnox"),
  ("voxdoubler", "Sonnox"), ("tdr", "Tokyo Dawn Records"),
  ("slick eq", "Tokyo Dawn Records"), ("nova", "Tokyo Dawn Records"),
  ("kotelnikov", "Tokyo Dawn Records"), ("limiter 6", "Tokyo Dawn Records"),
  ("molotok", "Tokyo Dawn Records"), ("proximity", "Tokyo Dawn Records"),
  ("seventh heaven", "LiquidSonics"), ("reverberate", "LiquidSonics"),
  ("cinematic rooms", "LiquidSonics"), ("tai chi", "LiquidSonics"),
  ("illusion", "LiquidSonics"), ("acqua", "Acustica Audio"),
  ("cream", "Acustica Audio"), ("sand", "Acustica Audio"),
  ("navy", "Acustica Audio"), ("fire", "Acustica Audio"),
  ("coral", "Acustica Audio"), ("jade", "Acustica Audio"),
  ("taupe", "Acustica Audio"), ("tan", "Acustica Audio"),
  ("purple", "Acustica Audio"), ("magenta", "Acustica Audio"),
  ("crimson", "Acustica Audio"), ("nebula", "Acustica Audio"),
  ("titanium", "Acustica Audio"), ("amethyst", "Acustica Audio"),
  ("amber", "Acustica Audio"), ("rose", "Acustica Audio"),
  ("coffee", "Acustica Audio"), ("ultramarine", "Acustica Audio"),
  ("lava", "Acustica Audio"), ("amplitube", "IK Multimedia"),
  ("t-racks", "IK Multimedia"), ("tracks", "IK Multimedia"),
  ("modo bass", "IK Multimedia"), ("modo drum", "IK Multimedia"),
  ("miroslav", "IK Multimedia"), ("sampletank", "IK Multimedia"),
  ("syntronik", "IK Multimedia"), ("lurssen", "IK Multimedia"),
  ("master eq", "IK Multimedia"), ("tape echo", "IK Multimedia"),
  ("serum", "Xfer Records"), ("cthulhu", "Xfer Records"),
  ("ott", "Xfer Records"), ("lfotool", "Xfer Records"),
  ("nerve", "Xfer Records"), ("omnisphere", "Spectrasonics"),
  ("keyscape", "Spectrasonics"), ("trilian", "Spectrasonics"),
  ("stylus", "Spectrasonics"), ("diva", "u-he"),
  ("hive", "u-he"), ("zebra", "u-he"),
  ("repro", "u-he"), ("bazille", "u-he"),
  ("ace", "u-he"), ("presswerk", "u-he"),
  ("satin", "u-he"), ("colour copy", "u-he"),
  ("twangstrom", "u-he"), ("podolski", "u-he"),
  ("tyrell", "u-he"), ("triple cheese", "u-he"),
  ("protoverb", "u-he"), ("filterscape", "u-he"),
  ("uhbik", "u-he"), ("phase plant", "Kilohearts"),
  ("snap heap", "Kilohearts"), ("multipass", "Kilohearts"),
  ("disperser", "Kilohearts"), ("faturator", "Kilohearts"),
  ("bitcrush", "Kilohearts"), ("carve eq", "Kilohearts"),
  ("transient shaper", "Kilohearts"), ("shaperbox", "Cableguys"),
  ("volumeshaper", "Cableguys"), ("filtershaper", "Cableguys"),
  ("timeshaper", "Cableguys"), ("panshaper", "Cableguys"),
  ("wideshaper", "Cableguys"), ("noiseshaper", "Cableguys"),
  ("crushershaper", "Cableguys"), ("halftime", "Cableguys"),
  ("curve", "Cableguys"), ("manipulator", "Polyverse"),
  ("infected", "Polyverse"), ("gatekeeper", "Infected Mushroom"),
  ("comet", "Polyverse"), ("wider", "Infected Mushroom"),
  ("filterverse", "Polyverse"), ("vulf compressor", "Goodhertz"),
  ("lossy", "Goodhertz"), ("tupe", "Goodhertz"),
  ("wow control", "Goodhertz"), ("panpot", "Goodhertz"),
  ("tone control", "Goodhertz"), ("faraday limiter", "Goodhertz"),
  ("lohi", "Goodhertz"), ("midside", "Goodhertz"),
  ("trem control", "Goodhertz"), ("canopener", "Goodhertz"),
  ("3d", "Goodhertz"), ("comeback kid", "Baby Audio"),
  ("crystalline", "Baby Audio"), ("ba-1", "Baby Audio"),
  ("super vhs", "Baby Audio"), ("parallel aggressor", "Baby Audio"),
  ("taip", "Baby Audio"), ("smooth operator", "Baby Audio"),
  ("transit", "Baby Audio"), ("spaced out", "Baby Audio"),
  ("soothe", "Oeksound"), ("spiff", "Oeksound"),
  ("bloom", "Oeksound"), ("psp", "PSPaudioware"),
  ("vintage warmer", "PSPaudioware"), ("xenon", "PSPaudioware"),
  ("infinistrip", "PSPaudioware"), ("compassion", "DMGAudio"),
  ("equilibrium", "DMGAudio"), ("essence", "DMGAudio"),
  ("expurgate", "DMGAudio"), ("dualism", "DMGAudio"),
  ("limitless", "DMGAudio"), ("multiplicity", "DMGAudio"),
  ("pitchfunk", "DMGAudio"), ("trackcomp", "DMGAudio"),
  ("trackds", "DMGAudio"), ("tracklimit", "DMGAudio"),
  ("trackcontrol", "DMGAudio"), ("trackmeter", "DMGAudio"),
  ("dubstation", "Audio Damage"), ("eos", "Audio Damage"),
  ("fuzz+", "Audio Damage"), ("grind", "Audio Damage"),
  ("liquid", "Audio Damage"), ("phosphor", "Audio Damage"),
  ("ratshack reverb", "Audio Damage"), ("replicant", "Audio Damage"),
  ("rough rider", "Audio Damage"), ("sequencer 1", "Audio Damage"),
  ("compressor bank", "McDSP"), ("filterbank", "McDSP"),
  ("ml4000", "McDSP"), ("mc2000", "McDSP"),
  ("futzbox", "McDSP"), ("analog channel", "McDSP"),
  ("acoustica", "Acon Digital"), ("declick", "Acon Digital"),
  ("declipper", "Acon Digital"), ("deconvolver", "Acon Digital"),
  ("dehum", "Acon Digital"), ("denoise", "Acon Digital"),
  ("deverb", "Acon Digital"), ("equalize", "Acon Digital"),
  ("extract", "Acon Digital"), ("limit", "Acon Digital"),
  ("master", "Acon Digital"), ("restoration suite", "Acon Digital"),
  ("verberate", "Acon Digital"), ("vitalize", "Acon Digital"),
  ("multiply", "Acon Digital"), ("aether", "2CAudio"),
  ("breeze", "2CAudio"), ("b2", "2CAudio"),
  ("kaleidoscope", "2CAudio"), ("precedence", "2CAudio"),
  ("th-u", "Overloud"), ("gem", "Overloud"),
  ("mark studio", "Overloud"), ("springage", "Overloud"),
  ("breverb", "Overloud"), ("rematrix", "Overloud"),
  ("blue cat", "Blue Cat Audio"), ("patchwork", "Blue Cat Audio"),
  ("mb-7", "Blue Cat Audio"), ("destructor", "Blue Cat Audio"),
  ("axiom", "Blue Cat Audio"), ("late replies", "Blue Cat Audio"),
  ("halion", "Steinberg"), ("groove agent", "Steinberg"),
  ("padshop", "Steinberg"), ("retrologue", "Steinberg"),
  ("backbone", "Steinberg"), ("cubasis", "Steinberg"),
  ("frequency", "Steinberg"), ("hypnotic", "Steinberg"),
  ("mystic", "Steinberg"), ("prologue", "Steinberg"),
  ("spector", "Steinberg"), ("amped", "Steinberg"),
  ("ssl native", "SSL"), ("bus compressor", "SSL"),
  ("channel strip", "SSL"), ("x-eq", "SSL"),
  ("x-comp", "SSL"), ("x-orcism", "SSL"),
  ("drumstrip", "SSL"), ("vocstrip", "SSL"),
  ("channelstrip", "Metric Halo"), ("flexpander", "SSL"),
  ("vocalstrip", "SSL"), ("fusion", "SSL"),
  ("adaptiverb", "Zynaptiq"), ("intensity", "Zynaptiq"),
  ("morph", "Zynaptiq"), ("pitchmap", "Zynaptiq"),
  ("unveil", "Zynaptiq"), ("unfilter", "Zynaptiq"),
  ("unmix", "Zynaptiq"), ("wormhole", "Zynaptiq"),
  ("elevate", "Newfangled Audio"), ("saturate", "Newfangled Audio"),
  ("pendulate", "Newfangled Audio"), ("generate", "Newfangled Audio"),
  ("beatformer", "Accusonus"), ("drumatom", "Accusonus"),
  ("era bundle", "Accusonus"), ("regroover", "Accusonus"),
  ("rhythmiq", "Accusonus"), ("voice de-noise", "iZotope"),
  ("de-hum", "iZotope"), ("de-clip", "iZotope"),
  ("de-click", "iZotope"), ("de-crackle", "iZotope"),
  ("de-reverb", "iZotope"), ("spectral de-noise", "iZotope"),
  ("dialogue isolate", "iZotope"), ("music rebalance", "iZotope"),
  ("breath control", "iZotope"), ("de-rustle", "iZotope"),
  ("de-plosive", "iZotope"), ("de-bleed", "iZotope"),
  ("de-ess", "iZotope"), ("ambience match", "iZotope"),
  ("loudness", "iZotope"), ("centerone", "Leapwing Audio"),
  ("dynone", "Leapwing Audio"), ("rootone", "Leapwing Audio"),
  ("stageone", "Leapwing Audio"), ("al schmitt", "Leapwing Audio"),
  ("vsc-2", "Vertigo Sound"), ("vsc-3", "Vertigo Sound"),
  ("vsm-3", "Vertigo Sound"), ("vse-2", "Vertigo Sound"),
  ("reelight pro", "Tone Empire"), ("goliath", "Tone Empire"),
  ("loc-ness", "Tone Empire"), ("model 5000", "Tone Empire"),
  ("attreides", "Tone Empire"), ("firechild", "Tone Empire"),
  ("neural q", "Tone Empire"), ("apt-2a", "Tone Empire"),
  ("vpre-73", "Black Rooster Audio"), ("ro-gold", "Black Rooster Audio"),
  ("magnetite", "Black Rooster Audio"), ("vla-2a", "Black Rooster Audio"),
  ("vla-3a", "Black Rooster Audio"), ("vhl-3c", "Black Rooster Audio"),
  ("vcomp-99", "Black Rooster Audio"), ("veq-1a", "Black Rooster Audio"),
  ("finisher", "UJAM"), ("beatmaker", "UJAM"),
  ("virtual guitarist", "UJAM"), ("virtual bassist", "UJAM"),
  ("virtual drummer", "UJAM"), ("usynth", "UJAM"),
  ("archetype", "Neural DSP"), ("parallax", "Neural DSP"),
  ("quad cortex", "Neural DSP"), ("plini", "Neural DSP"),
  ("nolly", "Neural DSP"), ("gojira", "Neural DSP"),
  ("cory wong", "Neural DSP"), ("tim henson", "Neural DSP"),
  ("rabea", "Neural DSP"), ("exoverb", "Dear Reality"),
  ("dearvr", "Dear Reality"), ("duck", "Devious Machines"),
  ("infiltrator", "Devious Machines"), ("pitch monster", "Devious Machines"),
  ("texture", "Devious Machines"), ("midiq", "W.A. Production"),
  ("instachord", "W.A. Production"), ("pumper", "W.A. Production"),
  ("mutant delay", "W.A. Production"), ("imprint", "W.A. Production"),
  ("outlaw", "W.A. Production"), ("midi chord pack", "Unison Audio"),
  ("midi wizard", "Unison Audio"), ("hybrid", "AIR Music Technology"),
  ("loom", "AIR Music Technology"), ("vacuum", "AIR Music Technology"),
  ("velvet", "AIR Music Technology"), ("strike", "AIR Music Technology"),
  ("structure", "AIR Music Technology"), ("xpand", "AIR Music Technology"),
  ("mini grand", "AIR Music Technology"), ("boom", "AIR Music Technology"),
  ("db-33", "AIR Music Technology"), ("blade", "Rob Papen"),
  ("blue", "Rob Papen"), ("predator", "Rob Papen"),
  ("raw", "Rob Papen"), ("subboombass", "Rob Papen"),
  ("vecto", "Rob Papen"), ("go2", "Rob Papen"),
  ("rp-verb", "Rob Papen"), ("rp-delay", "Rob Papen"),
  ("rp-distort", "Rob Papen"), ("spire", "Reveal Sound"),
  ("sylenth1", "LennarDigital"), ("sylenth", "LennarDigital"),
  ("dune", "Synapse Audio"), ("obsession", "Synapse Audio"),
  ("the legend", "Synapse Audio"), ("rack extensions", "Synapse Audio"),
  ("largo", "Waldorf"), ("nave", "Waldorf"),
  ("quantum", "Waldorf"), ("ppg wave", "Waldorf"),
  ("attack", "Waldorf"), ("d-pole", "Waldorf"),
  ("tal-", "TAL-Togu Audio Line"), ("noisemaker", "TAL-Togu Audio Line"),
  ("bassline", "TAL-Togu Audio Line"), ("sampler", "TAL-Togu Audio Line"),
  ("elek7ro", "TAL-Togu Audio Line"), ("dac", "TAL-Togu Audio Line"),
  ("reverb", "TAL-Togu Audio Line"), ("vocoder", "TAL-Togu Audio Line"),
  ("mautopitch", "MeldaProduction"), ("mautodynamic", "MeldaProduction"),
  ("mequalizer", "MeldaProduction"), ("mcompressor", "MeldaProduction"),
  ("mlimiter", "MeldaProduction"), ("mreverb", "MeldaProduction"),
  ("mflanger", "MeldaProduction"), ("mfreeshaper", "MeldaProduction"),
  ("rare", "Analog Obsession"), ("fetish", "Analog Obsession"),
  ("tbar", "Analog Obsession"), ("dist", "Analog Obsession"),
  ("merica", "Analog Obsession"), ("britpre", "Analog Obsession"),
  ("lala", "Analog Obsession"), ("britchannel", "Analog Obsession"),
  ("buster", "Analog Obsession"), ("channev", "Analog Obsession"),
  ("span", "Voxengo"), ("elephant", "Voxengo"),
  ("pristine", "Voxengo"), ("deft compressor", "Voxengo"),
  ("gliss eq", "Voxengo"), ("warmifier", "Voxengo"),
  ("teote", "Voxengo"), ("tube amp", "Voxengo"),
  ("marvel gem", "Voxengo"), ("boogex", "Voxengo"),
  ("crunchessor", "Voxengo"), ("marquis", "Voxengo"),
  ("sound delay", "Voxengo"), ("correlometer", "Voxengo"),
  ("overtone gem", "Voxengo"), ("polaris", "Audiority"),
  ("grainspace", "Audiority"), ("echoes", "Audiority"),
  ("l12x", "Audiority"), ("the abuser", "Audiority"),
  ("box bass", "Audiority"), ("solidus", "Audiority"),
  ("amp modeler", "Audio Assault"), ("demongate", "Audio Assault"),
  ("axxelerator", "Audio Assault"), ("defacer", "Audio Assault"),
  ("headcrusher", "Audio Assault"), ("hellbeast", "Audio Assault"),
  ("sigma", "Audio Assault"), ("transient+", "Audio Assault"),
  ("chow", "Chow DSP"), ("chowphatty", "Chow DSP"),
  ("chow tape model", "Chow DSP"), ("chow centaur", "Chow DSP"),
  ("thermal", "Output"), ("portal", "Output"),
  ("exhale", "Output"), ("signal", "Output"),
  ("movement", "Output"), ("arcade", "Output"),
  ("substance", "Output"), ("analog strings", "Output"),
  ("analog brass", "Output"), ("i wish", "Infected Mushroom"),
  ("pusher", "Infected Mushroom"), ("bomber", "Infected Mushroom"),
  ("lush", "D16 Group"), ("decimort", "D16 Group"),
  ("devastor", "D16 Group"), ("drumazon", "D16 Group"),
  ("fazortan", "D16 Group"), ("frontier", "D16 Group"),
  ("godfazer", "D16 Group"), ("nithonat", "D16 Group"),
  ("punchbox", "D16 Group"), ("redoptor", "D16 Group"),
  ("repeater", "D16 Group"), ("sigmund", "D16 Group"),
  ("syntorus", "D16 Group"), ("toraverb", "D16 Group"),
  ("phoscyon", "D16 Group"), ("cataract", "Glitchmachines"),
  ("convex", "Glitchmachines"), ("cryogen", "Glitchmachines"),
  ("fracture", "Glitchmachines"), ("hysteresis", "Glitchmachines"),
  ("palindrome", "Glitchmachines"), ("quadrant", "Glitchmachines"),
  ("scope", "Glitchmachines"), ("spirit eq", "Aegean Music"),
  ("pitchproof", "Aegean Music"), ("doppler", "Aegean Music"),
  ("devil spring", "Aegean Music"), ("graillon", "Auburn Sounds"),
  ("couture", "Auburn Sounds"), ("dseq", "TBProAudio"),
  ("dpmeq", "TBProAudio"), ("isol8", "TBProAudio"),
  ("gseq", "TBProAudio"), ("dseq3", "TBProAudio"),
  ("mongoose", "Boz Digital Labs"), ("the wall", "Boz Digital Labs"),
  ("panther", "Boz Digital Labs"), ("bark of dog", "Boz Digital Labs"),
  ("+10db", "Boz Digital Labs"), ("manic compressor", "Boz Digital Labs"),
  ("imperial delay", "Boz Digital Labs"), ("hoser", "Boz Digital Labs"),
  ("standard clip", "SIR Audio Tools"), ("standard channel", "SIR Audio Tools"),
  ("rs-w2395c", "Fuse Audio Labs"), ("vce-118", "Fuse Audio Labs"),
  ("vpre-31a", "Fuse Audio Labs"), ("vqp-150", "Fuse Audio Labs"),
  ("dc8c", "Klanghelm"), ("dc1a", "Klanghelm"),
  ("mjuc", "Klanghelm"), ("sdrr", "Klanghelm"),
  ("ivgi", "Klanghelm"), ("vumt", "Klanghelm"),
  ("voltage modular", "Cherry Audio"), ("memorymode", "Cherry Audio"),
  ("ps-20", "Cherry Audio"), ("eight voice", "Cherry Audio"),
  ("dco-106", "Cherry Audio"), ("ca2600", "Cherry Audio"),
  ("mercury", "Cherry Audio"), ("dreamsynth", "Cherry Audio"),
  ("elka-x", "Cherry Audio"), ("polymode", "Cherry Audio"),
  ("miniverse", "Cherry Audio"), ("quadra", "Cherry Audio"),
  ("sines", "Cherry Audio"), ("surrealistic", "Cherry Audio"),
  ("soundid", "Sonarworks"), ("reference", "Sonarworks"),
  ("haloverb", "Metric Halo"), ("multiband dynamics", "Metric Halo"),
  ("transientcontrol", "Metric Halo"), ("pure limiter", "Flux"),
  ("pure compressor", "Flux"), ("syrah", "Flux"),
  ("epure", "Flux"), ("bittersweet", "Flux"),
  ("stereo tool", "Flux"), ("elixir", "Flux"),
  ("spat revolution", "Flux"), ("mixbus", "Harrison"),
  ("xt-mc", "Harrison"), ("xt-ds", "Harrison"),
  ("xt-eg", "Harrison"), ("xt-sc", "Harrison"),
  ("xt-dc", "Harrison"), ("xt-bc", "Harrison"),
  ("xt-lc", "Harrison"), ("xt-me", "Harrison"),
  ("32c channel", "Harrison"), ("ava", "Harrison"),
  ("smart:eq", "Sonible"), ("smarteq", "Sonible"),
  ("smart eq", "Sonible"), ("smart:eq 3", "Sonible"),
  ("smart:eq 4", "Sonible"), ("smart eq 3", "Sonible"),
  ("smart eq 4", "Sonible"), ("smart:comp", "Sonible"),
  ("smartcomp", "Sonible"), ("smart comp", "Sonible"),
  ("smart:comp 2", "Sonible"), ("smart comp 2", "Sonible"),
  ("smart:limit", "Sonible"), ("smartlimit", "Sonible"),
  ("smart limit", "Sonible"), ("smart:reverb", "Sonible"),
  ("smart reverb", "Sonible"), ("smartreverb", "Sonible"),
  ("smart:reverb 2", "Sonible"), ("smart reverb 2", "Sonible"),
  ("smart:gate", "Sonible"), ("smart gate", "Sonible"),
  ("smartgate", "Sonible"), ("smart:deess", "Sonible"),
  ("smart deess", "Sonible"), ("smartdeess", "Sonible"),
  ("true:balance", "Sonible"), ("true balance", "Sonible"),
  ("true:level", "Sonible"), ("true level", "Sonible"),
  ("pure:deess", "Sonible"), ("pure deess", "Sonible"),
  ("pure:unmask", "Sonible"), ("pure unmask", "Sonible"),
  ("pure:eq", "Sonible"), ("pure eq", "Sonible"),
  ("pure:comp", "Sonible"), ("pure comp", "Sonible"),
  ("pure:verb", "Sonible"), ("pure verb", "Sonible"),
  ("pure:limit", "Sonible"), ("pure limit", "Sonible"),
  ("proximity:eq+", "Sonible"), ("proximityeq+", "Sonible"),
  ("entropy:eq+", "Sonible"), ("entropyeq+", "Sonible"),
  ("frei:raum", "Sonible"), ("freiraum", "Sonible"),
  ("prime:vocal", "Sonible"), ("prime vocal", "Sonible")]

def folderMap : List (String × String) := [
  ("izotope", "iZotope"), ("antares", "Antares"),
  ("fabfilter", "FabFilter"), ("waves", "Waves"),
  ("valhalla", "Valhalla DSP"), ("soundtoys", "Soundtoys"),
  ("plugin alliance", "Plugin Alliance"), ("brainworx", "Plugin Alliance"),
  ("slate digital", "Slate Digital"), ("universal audio", "Universal Audio"),
  ("arturia", "Arturia"), ("native instruments", "Native Instruments"),
  ("softube", "Softube"), ("liquidsonics", "LiquidSonics"),
  ("tokyo dawn", "Tokyo Dawn Records"), ("ik multimedia", "IK Multimedia"),
  ("eventide", "Eventide"), ("mcdsp", "McDSP"),
  ("sonnox", "Sonnox"), ("acustica audio", "Acustica Audio"),
  ("acustica", "Acustica Audio"), ("celemony", "Celemony"),
  ("xfer", "Xfer Records"), ("xfer records", "Xfer Records"),
  ("spectrasonics", "Spectrasonics"), ("u-he", "u-he"),
  ("uhe", "u-he"), ("kilohearts", "Kilohearts"),
  ("cableguys", "Cableguys"), ("polyverse", "Polyverse"),
  ("goodhertz", "Goodhertz"), ("oeksound", "Oeksound"),
  ("pspaudioware", "PSPaudioware"), ("psp", "PSPaudioware"),
  ("dmgaudio", "DMGAudio"), ("dmg audio", "DMGAudio"),
  ("audio damage", "Audio Damage"), ("acon digital", "Acon Digital"),
  ("2caudio", "2CAudio"), ("overloud", "Overloud"),
  ("blue cat", "Blue Cat Audio"), ("steinberg", "Steinberg"),
  ("ssl", "SSL"), ("solid state logic", "SSL"),
  ("zynaptiq", "Zynaptiq"), ("newfangled", "Newfangled Audio"),
  ("neural dsp", "Neural DSP"), ("dear reality", "Dear Reality"),
  ("ujam", "UJAM"), ("baby audio", "Baby Audio"),
  ("audiothing", "AudioThing"), ("rob papen", "Rob Papen"),
  ("reveal sound", "Reveal Sound"), ("lennardigital", "LennarDigital"),
  ("synapse audio", "Synapse Audio"), ("waldorf", "Waldorf"),
  ("tal", "TAL-Togu Audio Line"), ("meldaproduction", "MeldaProduction"),
  ("melda", "MeldaProduction"), ("sonible", "Sonible")]

def shortNameWhitelist : List String := ["b2", "b3", "ba-1", "dc1a", "dc8c", "l1", "l2", "l3", "mjuc", "nx", "ott", "rx", "vbc", "vcc", "vmr", "vms"]


/-- Characters removed when testing whether a name-map key is too short:
whitespace, hyphen, underscore and colon. -/
def plainStripped (c : Char) : Bool := pyIsSpace c || c == '-' || c == '_' || c == ':'

/-- Separator class collapsed to one space inside match_name: hyphen and
whitespace. -/
def hyphenSpace (c : Char) : Bool := c == '-' || pyIsSpace c

/-- VSTDatabase.match_name from vstscan.py: first table entry whose key is a
substring of the plugin name, either raw or with hyphen and space runs
collapsed, skipping keys whose stripped form is shorter than four characters
unless whitelisted. -/
def matchName (name : String) : Option String :=
  let nameLower := plower name.data
  let nameClean := pstrip (collapseRuns hyphenSpace ' ' nameLower)
  nameMap.findSome? (fun kv =>
    let kl := plower kv.1.data
    let plain := kl.filter (fun c => !plainStripped c)
    if plain.length < 4 && !shortNameWhitelist.any (fun w => w.data == kl) then none
    else
      let kc := pstrip (collapseRuns hyphenSpace ' ' kl)
      if containsSub kl nameLower then some kv.2
      else if !kc.isEmpty && containsSub kc nameClean then some kv.2
      else none)

/-- Filesystem path as match_folder sees it: the full textual path and its
components. -/
structure PyPath where
  full : String
  parts : List String
  deriving DecidableEq, Repr

/-- VSTDatabase.match_folder from vstscan.py. -/
def matchFolder (p : PyPath) : Option String :=
  let pathParts := plower p.full.data
  match folderMap.findSome? (fun kv =>
      if containsSub kv.1.data pathParts then some kv.2 else none) with
  | some m => some m
  | none =>
    p.parts.findSome? (fun part =>
      let pl := plower part.data
      match dlookup folderMap ⟨pl⟩ with
      | some m => some m
      | none =>
        folderMap.findSome? (fun kv =>
          if containsSub kv.1.data pl then some kv.2 else none))

/-!
Embedding of VSTScanner._determine_manufacturer (vstscan.py lines 976-1079)
and its surroundings.  The filesystem dependent inputs of the chain (the
parsed moduleinfo.json dict, the parsed Info.plist dict, the discovered
architecture specific binaries with their PE string tables and bounded
binary heads) are fields of an Artifact value.  The three database helpers
that are built on regular expressions (match_pattern, clean_manufacturer,
search_binary) are taken as function arguments, so every theorem below holds
for the real pattern tables as a special case. -/

/-- Architecture specific binary candidate together with the data the
scanner would extract from it. -/
structure DllCandidate where
  peMetadata : List (String × String)
  binaryHead : String
  deriving DecidableEq, Repr

/-- Scanned artifact with the evidence the extraction helpers yield for it. -/
structure Artifact where
  stem : String
  pluginType : String
  isDir : Bool
  path : PyPath
  moduleInfo : List (String × String)
  plist : List (String × String)
  dllCandidates : List DllCandidate
  deriving DecidableEq, Repr

/-- Oracle bundle for the three regex based database helpers. -/
structure RegexOracles where
  matchPattern : String → Option String
  cleanManufacturer : String → String
  searchBinary : String → Option String

/-- Default name of an artifact: the path stem with every occurrence of
.vst3 and .dll removed. -/
def defaultName (a : Artifact) : String :=
  pyReplace (pyReplace a.stem ".vst3" "") ".dll" ""

/-- Stage 0 of _determine_manufacturer: the WaveShell special case. -/
def stageWaveShell (a : Artifact) : Option (String × String) :=
  if pyIn "waveshell" (pyLower (defaultName a)) then some ("Waves", defaultName a)
  else none

/-- Stage 1 of _determine_manufacturer: plugin-name table lookup. -/
def stageNameTable (a : Artifact) : Option (String × String) :=
  (matchName (defaultName a)).map (fun m => (m, defaultName a))

/-- Stage 2 of _determine_manufacturer: vendor declared in moduleinfo.json,
cleaned, for VST3 bundle directories. -/
def stageModuleVendor (o : RegexOracles) (a : Artifact) : Option (String × String) :=
  if a.pluginType = "VST3" && a.isDir then
    let v := pyGetD a.moduleInfo "Vendor" ""
    if v ≠ "" then
      let vendor := o.cleanManufacturer v
      if vendor ≠ "Unknown" then
        some (vendor, pyOrS (pyGetD a.moduleInfo "Name" (defaultName a)) (defaultName a))
      else none
    else none
  else none

/-- Stage 3 of _determine_manufacturer: copyright text of Info.plist run
through the pattern table, for VST3 bundle directories. -/
def stagePlist (o : RegexOracles) (a : Artifact) : Option (String × String) :=
  if a.pluginType = "VST3" && a.isDir then
    if a.plist ≠ [] then
      let copyrightStr := pyGetD a.plist "NSHumanReadableCopyright" ""
      if copyrightStr ≠ "" then
        (o.matchPattern copyrightStr).map (fun m =>
          (m, pyOrS (pyGetD a.plist "CFBundleName" (defaultName a)) (defaultName a)))
      else none
    else none
  else none

/-- Priority list of PE string-table keys inspected by stage 4. -/
def peKeys : List String :=
  ["CompanyName", "LegalTrademarks", "LegalCopyright", "ProductName"]

/-- Stage 4 of _determine_manufacturer: PE metadata of each binary
candidate, pattern table first, then the cleaned literal CompanyName. -/
def stagePE (o : RegexOracles) (a : Artifact) : Option (String × String) :=
  a.dllCandidates.findSome? (fun dll =>
    let md := dll.peMetadata
    if md.isEmpty then none
    else
      peKeys.findSome? (fun key =>
        let value := pyGetD md key ""
        if value = "" then none
        else
          match o.matchPattern value with
          | some mfr =>
            some (mfr, pyOrS (pyGetD md "ProductName"
              (pyGetD md "FileDescription" (defaultName a))) (defaultName a))
          | none =>
            if key = "CompanyName" then
              let cleaned := o.cleanManufacturer value
              if cleaned ≠ "Unknown" && cleaned.length > 2 then
                some (cleaned, pyOrS (pyGetD md "ProductName" (defaultName a)) (defaultName a))
              else none
            else none))

/-- Stage 5 of _determine_manufacturer: the pattern table applied to the
default name itself. -/
def stageRegexName (o : RegexOracles) (a : Artifact) : Option (String × String) :=
  (o.matchPattern (defaultName a)).map (fun m => (m, defaultName a))

/-- Stage 6 of _determine_manufacturer: bounded binary search over the head
of the first binary candidate. -/
def stageBinary (o : RegexOracles) (a : Artifact) : Option (String × String) :=
  match a.dllCandidates with
  | [] => none
  | dll :: _ => (o.searchBinary dll.binaryHead).map (fun m => (m, defaultName a))

/-- Stage 7 of _determine_manufacturer: folder table, consulted last. -/
def stageFolder (a : Artifact) : Option (String × String) :=
  (matchFolder a.path).map (fun m => (m, defaultName a))

/-- VSTScanner._determine_manufacturer: ordered short-circuiting fallback
chain ending in the literal Unknown. -/
def determineManufacturer (o : RegexOracles) (a : Artifact) : String × String :=
  ((((((((stageWaveShell a).or (stageNameTable a)).or
      (stageModuleVendor o a)).or (stagePlist o a)).or
      (stagePE o a)).or (stageRegexName o a)).or
      (stageBinary o a)).or (stageFolder a)).getD ("Unknown", defaultName a)

/-- File as VSTScanner._read_binary_head sees it: its byte content plus
flags recording whether the stat call or the open and read raise. -/
structure BinFile where
  content : List UInt8
  statFails : Bool
  readFails : Bool
  deriving DecidableEq, Repr

/-- VSTScanner._read_binary_head from vstscan.py with its default size
argument of 256 KiB: files whose size exceeds 20 MiB yield the empty byte
string, any raised error yields the empty byte string, otherwise at most
size bytes of the prefix are read. -/
def readBinaryHead (f : BinFile) (size : Nat := 256 * 1024) : List UInt8 :=
  if f.statFails then []
  else if f.content.length > 20 * 1024 * 1024 then []
  else if f.readFails then []
  else f.content.take size

/-- PluginInfo from vstscan.py. -/
structure PluginInfo where
  manufacturer : String
  name : String
  plugin_type : String
  arch : String := "Unknown"
  path : String := ""
  deriving DecidableEq, Repr

/-- Key used by the final deduplication pass of scan_all_plugins. -/
def aggKey (p : PluginInfo) : String × String × String :=
  (pyLower p.name, p.plugin_type, p.path)

/-- Sort key of the final catalog: lowercased manufacturer, then lowercased
name. -/
def sortKey (p : PluginInfo) : String × String :=
  (pyLower p.manufacturer, pyLower p.name)

/-- Ordering relation of the final catalog sort. -/
def catalogLe (p q : PluginInfo) : Prop :=
  strLt (sortKey p).1 (sortKey q).1 = true ∨
    ((sortKey p).1 = (sortKey q).1 ∧
      (strLt (sortKey p).2 (sortKey q).2 = true ∨ (sortKey p).2 = (sortKey q).2))

instance : DecidableRel catalogLe := fun p q => by
  unfold catalogLe
  infer_instance

/-- First-wins deduplication of scan_all_plugins: the insertion ordered dict
keyed by aggKey, holding the first record seen for each key. -/
def uniqueByKey (ps : List PluginInfo) : List PluginInfo :=
  ps.foldl (fun acc p => if acc.any (fun q => aggKey q = aggKey p) then acc else acc ++ [p]) []

/-- Final aggregation of scan_all_plugins (vstscan.py lines 1211-1220):
deduplicate by key, then sort by lowercased manufacturer and name.  The
insertion sort is stable, as the Python sort is. -/
def aggregate (ps : List PluginInfo) : List PluginInfo :=
  (uniqueByKey ps).insertionSort catalogLe

/-- Unknown collection of scan_all_plugins (vstscan.py lines 1222-1225). -/
def collectUnknown (ps : List PluginInfo) : List PluginInfo :=
  ps.filter (fun p => p.manufacturer = "Unknown")

/-!
Embedding of the extraction helpers of src/vst_scanning_tool/scanner.py.
Fallible parsing of a descriptor is modelled by an Except value: an input of
the shape some (Except.error e) stands for a file that exists but whose
parse raises, none stands for a missing file.  The Python try and except
blocks become matches on that value.
-/

/-- Python idiom a or b on two possibly absent strings: the first operand
wins when it is present and non-empty. -/
def pyOrOpt (a b : Option String) : Option String :=
  if pyTruthyOpt a then a else b

/-- Result of scanner._read_vst3_metadata: the evidence dict, with possibly
absent values exactly as the Python dict stores possibly None values. -/
def readVst3Metadata (infoPlist : Option (Except Unit (List (String × String)))) :
    List (String × Option String) :=
  match infoPlist with
  | none => []
  | some (Except.error _) => []
  | some (Except.ok pd) =>
    [("name", pyOrOpt (dlookup pd "CFBundleName") (dlookup pd "CFBundleDisplayName")),
     ("identifier", dlookup pd "CFBundleIdentifier"),
     ("manufacturer", pyOrOpt (dlookup pd "AudioComponentManufacturer")
        (dlookup pd "Manufacturer")),
     ("version", dlookup pd "CFBundleShortVersionString")]

/-- Result of scanner._read_sidecar_metadata over its two suffix candidates:
the first candidate that exists and parses wins, a candidate that exists but
fails to parse is skipped, and with no parsable candidate the contribution
is empty. -/
def readSidecarMetadata (c1 c2 : Option (Except Unit (List (String × String)))) :
    List (String × String) :=
  match c1 with
  | some (Except.ok d) => d
  | some (Except.error _) =>
    match c2 with
    | some (Except.ok d) => d
    | _ => []
  | none =>
    match c2 with
    | some (Except.ok d) => d
    | _ => []

/-- Result of VSTScanner._extract_pe_metadata: a parse that raises
contributes the empty dict. -/
def extractPeMetadata (parse : Except Unit (List (String × String))) :
    List (String × String) :=
  match parse with
  | Except.ok d => d
  | Except.error _ => []

/-- Result collection loop of scan_all_plugins: each finished task either
raised (Except.error), returned None (skipped duplicate), or returned a
PluginInfo that is appended; errors are swallowed and the loop continues. -/
def collectResults (rs : List (Except Unit (Option PluginInfo))) : List PluginInfo :=
  rs.foldl
    (fun acc r =>
      match r with
      | Except.ok (some p) => acc ++ [p]
      | _ => acc)
    []

/-!
Embedding of src/vst_scanning_tool/writer.py.  The writer joins its line
list with newlines and writes it to disk; the pure line list is modelled.
-/

/-- Ordering of entries inside one manufacturer group: lowercased name, then
plugin type. -/
def entryLe (r s : PluginRecord) : Prop :=
  strLt (pyLower r.name) (pyLower s.name) = true ∨
    (pyLower r.name = pyLower s.name ∧
      (strLt r.plugin_type s.plugin_type = true ∨ r.plugin_type = s.plugin_type))

instance : DecidableRel entryLe := fun r s => by
  unfold entryLe
  infer_instance

/-- Ordering of the manufacturer headings. -/
def headingLe (a b : String) : Prop := strLt a b = true ∨ a = b

instance : DecidableRel headingLe := fun a b => by
  unfold headingLe
  infer_instance

/-- Report line for one record, from write_text_report. -/
def lineOf (r : PluginRecord) : String :=
  "- " ++ r.name ++ " (" ++ r.plugin_type ++ ")" ++
    (if pyTruthyOpt r.version then " v" ++ r.version.getD "" else "") ++
    " :: " ++ r.path

/-- Grouping step of write_text_report, modelling dict.setdefault followed
by append. -/
def groupStep (acc : List (String × List PluginRecord)) (r : PluginRecord) :
    List (String × List PluginRecord) :=
  if acc.any (fun p => p.1 = r.manufacturer) then
    acc.map (fun p => if p.1 = r.manufacturer then (p.1, p.2 ++ [r]) else p)
  else acc ++ [(r.manufacturer, [r])]

/-- Insertion ordered manufacturer grouping of write_text_report. -/
def groupByMfr (rs : List PluginRecord) : List (String × List PluginRecord) :=
  rs.foldl groupStep []

/-- Lookup of one group in the grouped dict. -/
def groupOf (g : List (String × List PluginRecord)) (m : String) : List PluginRecord :=
  ((g.find? (fun p => p.1 = m)).map (·.2)).getD []

/-- Line list produced by write_text_report: manufacturers in sorted order,
a heading for each, its entries sorted by lowercased name and type, and a
blank line after each group. -/
def writeLines (rs : List PluginRecord) : List String :=
  let grouped := groupByMfr rs
  ((grouped.map (·.1)).insertionSort headingLe).flatMap (fun m =>
    ("[" ++ m ++ "]") :: ((groupOf grouped m).insertionSort entryLe).map lineOf ++ [""])

/-!
Derived notions and concrete data used by the theorems below.
-/

/-- Key compared by the dedup-key uniqueness property: plugin type,
lowercased manufacturer, lowercased name, read off a record. -/
def dedupKeyRec (r : PluginRecord) : String × String × String :=
  (r.plugin_type, pyLower r.manufacturer, pyLower r.name)

/-- Strict version of the catalog ordering. -/
def catalogLt (p q : PluginInfo) : Prop :=
  strLt (sortKey p).1 (sortKey q).1 = true ∨
    ((sortKey p).1 = (sortKey q).1 ∧ strLt (sortKey p).2 (sortKey q).2 = true)

/-- First-occurrence deduplication of a string list, the key order produced
by an insertion ordered dict. -/
def firstOccur (l : List String) : List String :=
  l.foldl (fun acc m => if m ∈ acc then acc else acc ++ [m]) []

/-- Entry ordering written in the specification text: raw name, then type.
This definition follows the words of the spec and is compared against the
ordering the code actually uses. -/
def specEntryLe (r s : PluginRecord) : Prop :=
  strLt r.name s.name = true ∨
    (r.name = s.name ∧
      (strLt r.plugin_type s.plugin_type = true ∨ r.plugin_type = s.plugin_type))

instance : DecidableRel specEntryLe := fun r s => by
  unfold specEntryLe
  infer_instance

/-- Entries sorted the way the specification text describes them. -/
def specSortedEntries (rs : List PluginRecord) : List PluginRecord :=
  rs.insertionSort specEntryLe

/-- Oracle bundle in which no regex based helper ever matches and cleanup
returns its input unchanged. -/
def noMatchOracles : RegexOracles :=
  { matchPattern := fun _ => none
    cleanManufacturer := fun s => s
    searchBinary := fun _ => none }

/-- Artifact with no evidence at all and a name and path that match nothing. -/
def artifactZzqq : Artifact :=
  { stem := "Zzqq"
    pluginType := "VST2"
    isDir := false
    path := { full := "d:\\plugs\\zzqq.dll", parts := ["d:\\", "plugs", "zzqq.dll"] }
    moduleInfo := []
    plist := []
    dllCandidates := [] }

/-- VST3 bundle whose name-table entry conflicts with its declared vendor. -/
def artifactOzone : Artifact :=
  { stem := "Ozone 11"
    pluginType := "VST3"
    isDir := true
    path := { full := "d:\\plugs\\Ozone 11.vst3", parts := ["d:\\", "plugs", "Ozone 11.vst3"] }
    moduleInfo := [("Vendor", "Evil Corp"), ("Name", "Evil Product")]
    plist := []
    dllCandidates := [] }

/-- Artifact whose name both contains the WaveShell marker and matches the
ozone entry of the curated name table. -/
def artifactWaveShell : Artifact :=
  { stem := "WaveShell Ozone"
    pluginType := "VST3"
    isDir := true
    path := { full := "d:\\plugs\\WaveShell Ozone.vst3", parts := [] }
    moduleInfo := [("Vendor", "iZotope, Inc."), ("Name", "Ozone")]
    plist := []
    dllCandidates := [] }

/-- Catalog records with distinct dedup keys and distinct sort keys. -/
def infoA : PluginInfo := { manufacturer := "A", name := "x", plugin_type := "VST2", arch := "x64", path := "pa" }

/-- Second catalog record for the permutation witness. -/
def infoB : PluginInfo := { manufacturer := "B", name := "x", plugin_type := "VST2", arch := "x64", path := "pb" }

/-- Catalog record colliding with infoZorro on the dedup key while naming a
different manufacturer. -/
def infoAcme : PluginInfo := { manufacturer := "Acme", name := "x", plugin_type := "VST2", arch := "x64", path := "p" }

/-- Catalog record colliding with infoAcme on the dedup key. -/
def infoZorro : PluginInfo := { manufacturer := "Zorro", name := "x", plugin_type := "VST2", arch := "x64", path := "p" }

/-- Report record with an uppercase name. -/
def recZeta : PluginRecord := { name := "Zeta", manufacturer := "M", plugin_type := "VST2", path := "pz" }

/-- Report record with a lowercase name. -/
def recAlpha : PluginRecord := { name := "alpha", manufacturer := "M", plugin_type := "VST2", path := "pa" }

/-- Record with an empty manufacturer, merge target of the richer-text
counterexample. -/
def recEmptyMfr : PluginRecord := { name := "n", manufacturer := "", plugin_type := "VST2", path := "p1" }

/-- Record whose manufacturer is one space: non-empty, but trimming leaves
nothing. -/
def recSpaceMfr : PluginRecord := { name := "n", manufacturer := " ", plugin_type := "VST2", path := "p2" }

/-- Raw record used to witness the canonicalization of fields performed by
deduplicate. -/
def recRaw : PluginRecord :=
  { name := "  My  Plug ", manufacturer := " acustica ", plugin_type := "vst3", path := "c:\\p\\My Plug.vst3" }

/-- Canonicalized form of recRaw as deduplicate produces it. -/
def recCanon : PluginRecord :=
  { name := "My Plug", manufacturer := "Acustica Audio", plugin_type := "VST3",
    path := "c:\\p\\My Plug.vst3" }

/-- Record with the short manufacturer text of the richer-wins scenario. -/
def recAcmeShort : PluginRecord :=
  { name := "nn", manufacturer := "Acme", plugin_type := "VST2", path := "q1" }

/-- Record with the long manufacturer text of the richer-wins scenario. -/
def recAcmeLong : PluginRecord :=
  { name := "n", manufacturer := "Acme Audio Systems", plugin_type := "VST2", path := "q2" }

/-!
Theorems.
-/

/-- C7: for every file the binary head read returns at most 262144 bytes of
the file prefix, returns the empty byte string whenever the file exceeds
20 MiB, and returns the empty byte string on any raised stat or read
error. -/
theorem c7_read_binary_head (f : BinFile) :
    (readBinaryHead f).length ≤ 262144 ∧
    (∃ n, readBinaryHead f = f.content.take n) ∧
    (f.content.length > 20971520 → readBinaryHead f = []) ∧
    (f.statFails = true → readBinaryHead f = []) ∧
    (f.readFails = true → readBinaryHead f = []) := by
  by_cases h1 : f.statFails = true
  · have he : readBinaryHead f = [] := by simp [readBinaryHead, h1]
    exact ⟨by simp [he], ⟨0, by simp [he]⟩, fun _ => he, fun _ => he, fun _ => he⟩
  · by_cases h2 : f.content.length > 20 * 1024 * 1024
    · have he : readBinaryHead f = [] := by simp [readBinaryHead, h1, h2]
      exact ⟨by simp [he], ⟨0, by simp [he]⟩, fun _ => he, fun hs => absurd hs h1, fun _ => he⟩
    · by_cases h3 : f.readFails = true
      · have he : readBinaryHead f = [] := by simp [readBinaryHead, h1, h2, h3]
        exact ⟨by simp [he], ⟨0, by simp [he]⟩, fun _ => he, fun hs => absurd hs h1, fun _ => he⟩
      · have he : readBinaryHead f = f.content.take (256 * 1024) := by
          simp [readBinaryHead, h1, h2, h3]
        refine ⟨?_, ⟨256 * 1024, he⟩, ?_, fun hs => absurd hs h1, fun hs => absurd hs h3⟩
        · rw [he]
          calc (f.content.take (256 * 1024)).length ≤ 256 * 1024 := by
                simpa using f.content.length_take_le (256 * 1024)
            _ ≤ 262144 := by norm_num
        · intro hgt
          exact absurd (by omega : f.content.length > 20 * 1024 * 1024) h2

/-- Witness for C7 at concrete files: a stat failure yields the empty
result, and a 20 MiB + 1 byte file is skipped entirely. -/
theorem c7_read_binary_head_witness :
    readBinaryHead (⟨[7], true, false⟩ : BinFile) = [] ∧
    readBinaryHead (⟨List.replicate 20971521 (7 : UInt8), false, false⟩ : BinFile) = [] := by
  constructor
  · exact (c7_read_binary_head _).2.2.2.1 rfl
  · exact (c7_read_binary_head _).2.2.1 (by rw [List.length_replicate]; omega)

/-- C5: extraction failure is isolated.  A descriptor whose parse raises
contributes the empty evidence map; a sidecar candidate whose parse raises
is skipped and the remaining candidate is still consulted; a PE resource
table whose parse raises contributes the empty map; a raised task in the
result collection loop is swallowed without affecting what the other tasks
contribute. -/
theorem c5_extraction_isolated :
    (∀ e : Unit, readVst3Metadata (some (Except.error e)) = []) ∧
    (∀ (e : Unit) (c2 : Option (Except Unit (List (String × String)))),
      readSidecarMetadata (some (Except.error e)) c2 = readSidecarMetadata none c2) ∧
    (∀ e : Unit, extractPeMetadata (Except.error e) = []) ∧
    (∀ (xs ys : List (Except Unit (Option PluginInfo))) (e : Unit),
      collectResults (xs ++ Except.error e :: ys) = collectResults (xs ++ ys)) := by
  refine ⟨fun e => rfl, fun e c2 => ?_, fun e => rfl, fun xs ys e => ?_⟩
  · cases c2 with
    | none => rfl
    | some x =>
      cases x with
      | ok d => rfl
      | error e2 => rfl
  · unfold collectResults
    rw [List.foldl_append, List.foldl_append, List.foldl_cons]

/-- Characterization of the richer-text test when the trimmed lengths of
the two texts differ. -/
theorem isRicherText_eq_of_ne (s t : String)
    (h : (pyStrip s).length ≠ (pyStrip t).length) :
    isRicherText t s = decide ((pyStrip s).length < (pyStrip t).length) := by
  unfold isRicherText
  by_cases ht : t = ""
  · subst ht
    have h0 : (pyStrip "").length = 0 := rfl
    simp [h0]
  · by_cases hs : s = ""
    · subst hs
      have h0 : (pyStrip "").length = 0 := rfl
      rw [if_neg ht, if_pos rfl]
      have : 0 < (pyStrip t).length := by omega
      simp [h0, this]
    · rw [if_neg ht, if_neg hs]

/-- C4 (amended): the richer-text test accepts an incoming text exactly
when the incoming text is non-empty and either the target text is empty or
the incoming text is strictly longer after trimming; consequently, whenever
the two trimmed lengths differ, merging in either order leaves the text of
strictly greater trimmed length, for the manufacturer field and for the
name field alike. -/
theorem c4_merge_richer_wins (a b : PluginRecord) :
    (isRicherText b.manufacturer a.manufacturer = true ↔
      (b.manufacturer ≠ "" ∧ (a.manufacturer = "" ∨
        (pyStrip a.manufacturer).length < (pyStrip b.manufacturer).length))) ∧
    ((pyStrip a.manufacturer).length ≠ (pyStrip b.manufacturer).length →
      ((a.merge b).manufacturer =
        (if (pyStrip a.manufacturer).length < (pyStrip b.manufacturer).length
          then b.manufacturer else a.manufacturer) ∧
       (b.merge a).manufacturer =
        (if (pyStrip a.manufacturer).length < (pyStrip b.manufacturer).length
          then b.manufacturer else a.manufacturer))) ∧
    ((pyStrip a.name).length ≠ (pyStrip b.name).length →
      ((a.merge b).name =
        (if (pyStrip a.name).length < (pyStrip b.name).length
          then b.name else a.name) ∧
       (b.merge a).name =
        (if (pyStrip a.name).length < (pyStrip b.name).length
          then b.name else a.name))) := by
  have hmergeM : ∀ x y : PluginRecord,
      (x.merge y).manufacturer =
        if isRicherText y.manufacturer x.manufacturer then y.manufacturer
        else x.manufacturer := by
    intro x y
    simp [PluginRecord.merge]
  have hmergeN : ∀ x y : PluginRecord,
      (x.merge y).name =
        if isRicherText y.name x.name then y.name else x.name := by
    intro x y
    simp [PluginRecord.merge]
  refine ⟨?_, ?_, ?_⟩
  · unfold isRicherText
    by_cases hb : b.manufacturer = ""
    · simp [hb]
    · by_cases ha : a.manufacturer = ""
      · simp [hb, ha]
      · simp [hb, ha]
  · intro hm
    rw [hmergeM a b, hmergeM b a,
      isRicherText_eq_of_ne a.manufacturer b.manufacturer hm,
      isRicherText_eq_of_ne b.manufacturer a.manufacturer (Ne.symm hm)]
    by_cases hlt : (pyStrip a.manufacturer).length < (pyStrip b.manufacturer).length
    · have hnlt : ¬ (pyStrip b.manufacturer).length < (pyStrip a.manufacturer).length := by omega
      simp [hlt, hnlt]
    · have hlt2 : (pyStrip b.manufacturer).length < (pyStrip a.manufacturer).length := by omega
      simp [hlt, hlt2]
  · intro hn
    rw [hmergeN a b, hmergeN b a,
      isRicherText_eq_of_ne a.name b.name hn,
      isRicherText_eq_of_ne b.name a.name (Ne.symm hn)]
    by_cases hlt : (pyStrip a.name).length < (pyStrip b.name).length
    · have hnlt : ¬ (pyStrip b.name).length < (pyStrip a.name).length := by omega
      simp [hlt, hnlt]
    · have hlt2 : (pyStrip b.name).length < (pyStrip a.name).length := by omega
      simp [hlt, hlt2]

/-- Witness for C4 on the Acme records of the specification scenario:
merging in either order leaves the longer manufacturer text. -/
theorem c4_merge_richer_wins_witness :
    (recAcmeShort.merge recAcmeLong).manufacturer = "Acme Audio Systems" ∧
    (recAcmeLong.merge recAcmeShort).manufacturer = "Acme Audio Systems" := by
  have h := (c4_merge_richer_wins recAcmeShort recAcmeLong).2.1 (by decide)
  constructor
  · rw [h.1]; decide
  · rw [h.2]; decide

/-- Counterexample for C4 as stated: with an empty target manufacturer and
an incoming manufacturer of one space the incoming text replaces the
target even though its trimmed length is not strictly greater. -/
theorem c4_counterexample :
    (recEmptyMfr.merge recSpaceMfr).manufacturer = " " ∧
    recSpaceMfr.manufacturer ≠ "" ∧
    (pyStrip recSpaceMfr.manufacturer).length =
      (pyStrip recEmptyMfr.manufacturer).length := by
  decide

/-- Aggregation of a single record returns exactly that record. -/
theorem aggregate_singleton (p : PluginInfo) : aggregate [p] = [p] := by
  rfl

/-- C2: an artifact for which no resolution stage matches resolves to the
literal Unknown manufacturer with the default name; the resulting record is
non-empty in its manufacturer, survives final aggregation as exactly one
record, and is collected into the unknown report rather than dropped. -/
theorem c2_unknown_retention (o : RegexOracles) (a : Artifact) (arch : String)
    (h1 : stageWaveShell a = none) (h2 : stageNameTable a = none)
    (h3 : stageModuleVendor o a = none) (h4 : stagePlist o a = none)
    (h5 : stagePE o a = none) (h6 : stageRegexName o a = none)
    (h7 : stageBinary o a = none) (h8 : stageFolder a = none) :
    determineManufacturer o a = ("Unknown", defaultName a) ∧
    ("Unknown" : String) ≠ "" ∧
    aggregate [PluginInfo.mk "Unknown" (defaultName a) a.pluginType arch a.path.full] =
      [PluginInfo.mk "Unknown" (defaultName a) a.pluginType arch a.path.full] ∧
    collectUnknown
        [PluginInfo.mk "Unknown" (defaultName a) a.pluginType arch a.path.full] =
      [PluginInfo.mk "Unknown" (defaultName a) a.pluginType arch a.path.full] := by
  refine ⟨?_, by decide, aggregate_singleton _, ?_⟩
  · unfold determineManufacturer
    rw [h1, h2, h3, h4, h5, h6, h7, h8]
    rfl
  · unfold collectUnknown
    simp

/-- Witness for C2: the evidence-free artifact Zzqq resolves to Unknown and
is retained through aggregation and the unknown report. -/
theorem c2_unknown_retention_witness :
    determineManufacturer noMatchOracles artifactZzqq = ("Unknown", "Zzqq") ∧
    aggregate [PluginInfo.mk "Unknown" "Zzqq" "VST2" "x64" "d:\\plugs\\zzqq.dll"] =
      [PluginInfo.mk "Unknown" "Zzqq" "VST2" "x64" "d:\\plugs\\zzqq.dll"] ∧
    collectUnknown [PluginInfo.mk "Unknown" "Zzqq" "VST2" "x64" "d:\\plugs\\zzqq.dll"] =
      [PluginInfo.mk "Unknown" "Zzqq" "VST2" "x64" "d:\\plugs\\zzqq.dll"] := by
  have h := c2_unknown_retention noMatchOracles artifactZzqq "x64"
    (by decide) (by decide) (by decide) (by decide)
    (by decide) (by decide) (by decide) (by decide)
  exact ⟨h.1, h.2.2.1, h.2.2.2⟩

/-- C3 (amended): when the WaveShell exact-name override does not fire, a
hit in the curated name table determines the resolved manufacturer and
keeps the default name, whatever the structured vendor declaration, plist,
PE metadata, binary content or folder would have said. -/
theorem c3_name_table_beats_vendor (o : RegexOracles) (a : Artifact) (m : String)
    (h1 : stageWaveShell a = none)
    (h2 : matchName (defaultName a) = some m) :
    determineManufacturer o a = (m, defaultName a) := by
  unfold determineManufacturer stageNameTable
  rw [h1, h2]
  rfl

/-- Witness for C3: the bundle Ozone 11, whose descriptor declares the
conflicting vendor Evil Corp, resolves to the name-table manufacturer
iZotope even though the vendor stage would have produced Evil Corp. -/
theorem c3_name_table_beats_vendor_witness :
    determineManufacturer noMatchOracles artifactOzone = ("iZotope", "Ozone 11") ∧
    stageModuleVendor noMatchOracles artifactOzone = some ("Evil Corp", "Evil Product") := by
  constructor
  · exact c3_name_table_beats_vendor noMatchOracles artifactOzone "iZotope"
      (by decide) (by decide)
  · decide

/-- Counterexample for C3 as stated: the artifact WaveShell Ozone matches
the curated name-table entry ozone, yet resolution returns Waves, because
the WaveShell exact-name override runs before the name table. -/
theorem c3_counterexample :
    matchName (defaultName artifactWaveShell) = some "iZotope" ∧
    determineManufacturer noMatchOracles artifactWaveShell =
      ("Waves", "WaveShell Ozone") ∧
    ("Waves" : String) ≠ "iZotope" := by
  refine ⟨by decide, ?_, by decide⟩
  have hws : stageWaveShell artifactWaveShell =
      some ("Waves", "WaveShell Ozone") := by decide
  unfold determineManufacturer
  rw [hws]
  rfl

/-- Dropping while a predicate holds is idempotent. -/
theorem dropWhile_self {α : Type} (p : α → Bool) (l : List α) :
    List.dropWhile p (List.dropWhile p l) = List.dropWhile p l := by
  induction l with
  | nil => rfl
  | cons a rest ih =>
    by_cases hp : p a = true
    · simpa [List.dropWhile_cons, hp] using ih
    · simp [List.dropWhile_cons, hp]

/-- The length of dropWhile never exceeds the length of the input. -/
theorem dropWhile_len_le {α : Type} (p : α → Bool) (l : List α) :
    (List.dropWhile p l).length ≤ l.length := by
  induction l with
  | nil => simp
  | cons a rest ih =>
    by_cases hp : p a = true
    · simp only [List.dropWhile_cons, hp, if_pos]
      exact Nat.le_succ_of_le ih
    · simp [List.dropWhile_cons, hp]

/-- A list is split by takeWhile and dropWhile around its trailing segment;
stated for dropTrail. -/
theorem dropTrail_append (p : Char → Bool) (z : List Char) :
    z = dropTrail p z ++ (List.takeWhile p z.reverse).reverse := by
  unfold dropTrail
  conv_lhs => rw [← z.reverse_reverse, ← List.takeWhile_append_dropWhile p z.reverse]
  rw [List.reverse_append]

/-- Removing a trailing segment twice removes it once. -/
theorem dropTrail_self (p : Char → Bool) (l : List Char) :
    dropTrail p (dropTrail p l) = dropTrail p l := by
  unfold dropTrail
  rw [List.reverse_reverse, dropWhile_self]

/-- A list that starts with no matched characters still starts with none
after its trailing matched segment is removed. -/
theorem dropWhile_dropTrail (p : Char → Bool) (z : List Char)
    (hz : List.dropWhile p z = z) :
    List.dropWhile p (dropTrail p z) = dropTrail p z := by
  cases hd : dropTrail p z with
  | nil => simp
  | cons c cs =>
    have hsplit := dropTrail_append p z
    rw [hd] at hsplit
    have hpc : p c = false := by
      by_contra hpc
      rw [Bool.not_eq_false] at hpc
      have heq : List.dropWhile p z =
          List.dropWhile p ((cs ++ (List.takeWhile p z.reverse).reverse)) := by
        conv_lhs => rw [hsplit]
        simp [List.dropWhile_cons, hpc]
      rw [hz] at heq
      have h1 : z.length ≤ cs.length + (List.takeWhile p z.reverse).reverse.length := by
        conv_lhs => rw [heq]
        calc (List.dropWhile p (cs ++ (List.takeWhile p z.reverse).reverse)).length
            ≤ (cs ++ (List.takeWhile p z.reverse).reverse).length :=
              dropWhile_len_le p _
          _ = cs.length + (List.takeWhile p z.reverse).reverse.length := by
              rw [List.length_append]
      have h2 : z.length =
          cs.length + (List.takeWhile p z.reverse).reverse.length + 1 := by
        conv_lhs => rw [hsplit]
        simp [List.length_append]
      omega
    simp [List.dropWhile_cons, hpc]

/-- Stripping a character list is idempotent. -/
theorem pstrip_idem (l : List Char) : pstrip (pstrip l) = pstrip l := by
  unfold pstrip
  have h1 : List.dropWhile pyIsSpace
      (dropTrail pyIsSpace (List.dropWhile pyIsSpace l)) =
      dropTrail pyIsSpace (List.dropWhile pyIsSpace l) :=
    dropWhile_dropTrail pyIsSpace _ (dropWhile_self pyIsSpace l)
  rw [h1, dropTrail_self]

/-- Stripping a string is idempotent. -/
theorem pyStrip_idem (s : String) : pyStrip (pyStrip s) = pyStrip s :=
  congrArg String.mk (pstrip_idem s.data)

/-- All right-hand sides of the built-in alias table are fixed points of
manufacturer normalization. -/
theorem alias_snd_fixed :
    (defaultAliases.all
      (fun kv => normalizeManufacturer defaultAliases kv.2 none == kv.2)) = true := by
  decide

/-- A value produced by an alias lookup is a fixed point of manufacturer
normalization. -/
theorem fixed_of_lookup {k v : String}
    (h : dlookup defaultAliases k = some v) :
    normalizeManufacturer defaultAliases v none = v := by
  unfold dlookup at h
  cases hf : defaultAliases.find? (fun p => p.1 == k) with
  | none => rw [hf] at h; simp at h
  | some pr =>
    rw [hf] at h
    simp only [Option.map_some'] at h
    have hmem := List.mem_of_find?_eq_some hf
    have hall := alias_snd_fixed
    rw [List.all_eq_true] at hall
    have hfix := hall pr hmem
    rw [beq_iff_eq] at hfix
    have hv : pr.2 = v := Option.some.inj h
    rw [← hv]
    exact hfix

/-- C6 (amended): manufacturer normalization with the built-in alias table
and no plugin-name hint is idempotent: applied to its own output it returns
that output unchanged. -/
theorem c6_manufacturer_idempotent (m : String) :
    normalizeManufacturer defaultAliases
        (normalizeManufacturer defaultAliases m none) none =
      normalizeManufacturer defaultAliases m none := by
  have hnone : ∀ s : String, normalizeManufacturer defaultAliases s none =
      (match dlookup defaultAliases (pyLower (pyStrip s)) with
      | some v => v
      | none =>
        match (splitRuns mfrSep (pyStrip s).data).findSome?
            (fun tok => dlookup defaultAliases (pyLower ⟨tok⟩)) with
        | some v => v
        | none => if pyStrip s = "" then "Unknown" else pyStrip s) := by
    intro s
    rfl
  rw [hnone m]
  cases hl : dlookup defaultAliases (pyLower (pyStrip m)) with
  | some v =>
    simpa using fixed_of_lookup hl
  | none =>
    simp only []
    cases hfind : (splitRuns mfrSep (pyStrip m).data).findSome?
        (fun tok => dlookup defaultAliases (pyLower ⟨tok⟩)) with
    | some v =>
      simp only []
      obtain ⟨tok, _, htok⟩ := List.exists_of_findSome?_eq_some hfind
      exact fixed_of_lookup htok
    | none =>
      simp only []
      by_cases he : pyStrip m = ""
      · simp only [he, if_pos rfl]
        decide
      · rw [if_neg he, hnone (pyStrip m), pyStrip_idem, hl, hfind, if_neg he]

/-- Counterexample for C6 as stated: plugin-name normalization is not
idempotent, because an underscore next to a space collapses to a double
space that only a second pass removes. -/
theorem c6_counterexample :
    normalizePluginName "a_ b" = "a  b" ∧
    normalizePluginName (normalizePluginName "a_ b") = "a b" ∧
    normalizePluginName (normalizePluginName "a_ b") ≠ normalizePluginName "a_ b" := by
  decide

/-- Conversion of a valid small code point round-trips through Char. -/
theorem ofNat_toNat_small {n : Nat} (h : n < 55296) : (Char.ofNat n).toNat = n := by
  unfold Char.ofNat
  rw [dif_pos]
  · rfl
  · exact Or.inl h

/-- Characters with code points above 64 are not whitespace. -/
theorem pyIsSpace_false_of_gt (d : Char) (hd : 64 < d.toNat) : pyIsSpace d = false := by
  have hne : ∀ c : Char, c.toNat ≤ 64 → (d == c) = false := by
    intro c hc
    rw [beq_eq_false_iff_ne]
    intro he
    rw [he] at hd
    omega
  unfold pyIsSpace
  rw [hne ' ' (by decide), hne '\t' (by decide), hne '\n' (by decide),
    hne '\x0d' (by decide), hne '\x0b' (by decide), hne '\x0c' (by decide)]
  rfl

/-- Lowercasing preserves whether a character is whitespace. -/
theorem pyIsSpace_plowerC (c : Char) : pyIsSpace (plowerC c) = pyIsSpace c := by
  unfold plowerC
  by_cases h : 65 ≤ c.toNat ∧ c.toNat ≤ 90
  · rw [if_pos h]
    have hv : (Char.ofNat (c.toNat + 32)).toNat = c.toNat + 32 :=
      ofNat_toNat_small (by omega)
    rw [pyIsSpace_false_of_gt _ (by omega), pyIsSpace_false_of_gt c (by omega)]
  · rw [if_neg h]

/-- Stripping commutes with lowercasing. -/
theorem pstrip_plower_comm (l : List Char) :
    pstrip (plower l) = plower (pstrip l) := by
  have hpf : (pyIsSpace ∘ plowerC) = pyIsSpace := funext pyIsSpace_plowerC
  have hdw : ∀ z : List Char,
      List.dropWhile pyIsSpace (plower z) = plower (List.dropWhile pyIsSpace z) := by
    intro z
    unfold plower
    rw [List.dropWhile_map, hpf]
  have hdt : ∀ z : List Char,
      dropTrail pyIsSpace (plower z) = plower (dropTrail pyIsSpace z) := by
    intro z
    unfold dropTrail plower
    rw [← List.map_reverse, List.dropWhile_map, hpf, List.map_reverse]
  unfold pstrip
  rw [hdw, hdt]

/-- Two lists with equal lowercasings strip to equal lengths. -/
theorem pstrip_len_of_plower_eq {x y : List Char} (h : plower x = plower y) :
    (pstrip x).length = (pstrip y).length := by
  have h2 : (pstrip (plower x)).length = (pstrip (plower y)).length := by rw [h]
  rw [pstrip_plower_comm, pstrip_plower_comm] at h2
  unfold plower at h2
  simpa using h2

/-- The richer-text test never fires between two texts with the same
lowercasing. -/
theorem richer_false_of_lower_eq {x y : String} (h : pyLower x = pyLower y) :
    isRicherText x y = false := by
  have hd : plower x.data = plower y.data := congrArg String.data h
  unfold isRicherText
  by_cases hx : x = ""
  · simp [hx]
  · by_cases hy : y = ""
    · exfalso
      apply hx
      apply String.ext
      have h0 : plower x.data = [] := by
        rw [hd, hy]
        rfl
      have := List.map_eq_nil_iff.mp h0
      rw [this]
    · rw [if_neg hx, if_neg hy]
      have hlen := pstrip_len_of_plower_eq hd
      simp only [pyStrip, String.length, decide_eq_false_iff_not]
      omega

/-- Merging two records whose dedup keys agree changes neither the
manufacturer, the name, the type nor the path of the target. -/
theorem merge_fields_of_key_eq (s o : PluginRecord)
    (h2 : pyLower s.manufacturer = pyLower o.manufacturer)
    (h3 : pyLower s.name = pyLower o.name) :
    (s.merge o).manufacturer = s.manufacturer ∧ (s.merge o).name = s.name ∧
      (s.merge o).plugin_type = s.plugin_type ∧ (s.merge o).path = s.path := by
  have hm : isRicherText o.manufacturer s.manufacturer = false :=
    richer_false_of_lower_eq h2.symm
  have hn : isRicherText o.name s.name = false :=
    richer_false_of_lower_eq h3.symm
  refine ⟨?_, ?_, rfl, rfl⟩
  · simp [PluginRecord.merge, hm]
  · simp [PluginRecord.merge, hn]

/-- Invariant of the deduplication fold: the accumulator holds pairwise
distinct keys, each stored record carries exactly the key it is filed
under, and each stored record keeps the path and the canonicalized fields
of some source record. -/
theorem dedup_fold_inv (aliases : List (String × String)) (S : PluginRecord → Prop) :
    ∀ (rs : List PluginRecord) (acc : List ((String × String × String) × PluginRecord)),
    (∀ r ∈ rs, S r) →
    List.Pairwise (fun e1 e2 => e1.1 ≠ e2.1) acc →
    (∀ e ∈ acc, dedupKeyRec e.2 = e.1) →
    (∀ e ∈ acc, ∃ src, S src ∧ e.2.path = src.path ∧
        e.2.manufacturer = normalizeManufacturer aliases src.manufacturer (some src.name) ∧
        e.2.name = normalizePluginName src.name ∧
        e.2.plugin_type = pyUpper src.plugin_type) →
    List.Pairwise (fun e1 e2 => e1.1 ≠ e2.1) (rs.foldl (dedupStep aliases) acc) ∧
    (∀ e ∈ rs.foldl (dedupStep aliases) acc, dedupKeyRec e.2 = e.1) ∧
    (∀ e ∈ rs.foldl (dedupStep aliases) acc, ∃ src, S src ∧ e.2.path = src.path ∧
        e.2.manufacturer = normalizeManufacturer aliases src.manufacturer (some src.name) ∧
        e.2.name = normalizePluginName src.name ∧
        e.2.plugin_type = pyUpper src.plugin_type) := by
  intro rs
  induction rs with
  | nil => exact fun acc _ hP hK hQ => ⟨hP, hK, hQ⟩
  | cons r rest ih =>
    intro acc hS hP hK hQ
    have hS' : ∀ x ∈ rest, S x := fun x hx => hS x (List.mem_cons_of_mem r hx)
    have hSr : S r := hS r (List.mem_cons_self r rest)
    rw [List.foldl_cons]
    set i := identity aliases r.manufacturer r.name r.plugin_type with hi
    set r' : PluginRecord := { r with
      manufacturer := i.manufacturer
      name := i.plugin_name
      plugin_type := i.plugin_type } with hr'
    have hkeyr' : dedupKeyRec r' = dedupKeyOf i := rfl
    have hQr' : S r' → True := fun _ => trivial
    have hstep : dedupStep aliases acc r =
        if acc.any (fun p => p.1 = dedupKeyOf i) then
          acc.map (fun p => if p.1 = dedupKeyOf i then (p.1, p.2.merge r') else p)
        else acc ++ [(dedupKeyOf i, r')] := rfl
    rw [hstep]
    by_cases hmem : (acc.any (fun p => decide (p.1 = dedupKeyOf i))) = true
    · rw [if_pos hmem]
      have hfst : ∀ e : (String × String × String) × PluginRecord,
          ((if e.1 = dedupKeyOf i then (e.1, e.2.merge r') else e) :
            (String × String × String) × PluginRecord).1 = e.1 := by
        intro e
        split <;> rfl
      have hmergekeep : ∀ e ∈ acc, e.1 = dedupKeyOf i →
          (e.2.merge r').manufacturer = e.2.manufacturer ∧
          (e.2.merge r').name = e.2.name ∧
          (e.2.merge r').plugin_type = e.2.plugin_type ∧
          (e.2.merge r').path = e.2.path := by
        intro e he hek
        have hKe : dedupKeyRec e.2 = e.1 := hK e he
        have hkeq : dedupKeyRec e.2 = dedupKeyRec r' := by
          rw [hKe, hek, hkeyr']
        exact merge_fields_of_key_eq e.2 r'
          (congrArg (fun t => t.2.1) hkeq) (congrArg (fun t => t.2.2) hkeq)
      apply ih _ hS'
      · rw [List.pairwise_map]
        apply hP.imp_of_mem
        intro e1 e2 _ _ hne
        rw [hfst e1, hfst e2]
        exact hne
      · intro e' he'
        obtain ⟨e, he, hfe⟩ := List.mem_map.mp he'
        subst hfe
        by_cases hek : e.1 = dedupKeyOf i
        · rw [if_pos hek]
          have hkeep := hmergekeep e he hek
          have : dedupKeyRec (e.2.merge r') = dedupKeyRec e.2 := by
            unfold dedupKeyRec
            rw [hkeep.1, hkeep.2.1, hkeep.2.2.1]
          rw [this]
          exact hK e he
        · rw [if_neg hek]
          exact hK e he
      · intro e' he'
        obtain ⟨e, he, hfe⟩ := List.mem_map.mp he'
        subst hfe
        by_cases hek : e.1 = dedupKeyOf i
        · rw [if_pos hek]
          have hkeep := hmergekeep e he hek
          obtain ⟨src, hs, hpath, hm, hn, ht⟩ := hQ e he
          exact ⟨src, hs, hkeep.2.2.2.trans hpath, hkeep.1.trans hm,
            hkeep.2.1.trans hn, hkeep.2.2.1.trans ht⟩
        · rw [if_neg hek]
          exact hQ e he
    · rw [if_neg hmem]
      have hfalse : (acc.any (fun p => decide (p.1 = dedupKeyOf i))) = false := by
        revert hmem
        cases acc.any (fun p => decide (p.1 = dedupKeyOf i)) <;> simp
      have hnotin : ∀ e ∈ acc, e.1 ≠ dedupKeyOf i := by
        intro e he
        have := List.any_eq_false.mp hfalse e he
        simpa using this
      apply ih _ hS'
      · rw [List.pairwise_append]
        refine ⟨hP, List.pairwise_singleton _ _, ?_⟩
        intro e1 h1 e2 h2
        rw [List.mem_singleton] at h2
        subst h2
        exact hnotin e1 h1
      · intro e he
        rcases List.mem_append.mp he with h | h
        · exact hK e h
        · rw [List.mem_singleton] at h
          subst h
          exact hkeyr'
      · intro e he
        rcases List.mem_append.mp he with h | h
        · exact hQ e h
        · rw [List.mem_singleton] at h
          subst h
          refine ⟨r, hSr, ?_, ?_, ?_, ?_⟩ <;> rfl

/-- C1: no two records returned by deduplicate share the dedup key of
plugin type, lowercased manufacturer and lowercased name, for any alias
table and any input record list. -/
theorem c1_dedup_key_unique (aliases : List (String × String))
    (records : List PluginRecord) :
    List.Pairwise (fun a b => dedupKeyRec a ≠ dedupKeyRec b)
      (deduplicate aliases records) := by
  have h := dedup_fold_inv aliases (fun _ => True) records []
    (fun _ _ => trivial) List.Pairwise.nil
    (fun e he => absurd he (List.not_mem_nil e))
    (fun e he => absurd he (List.not_mem_nil e))
  unfold deduplicate
  rw [List.pairwise_map]
  apply h.1.imp_of_mem
  intro e1 e2 h1 h2 hne
  rw [h.2.1 e1 h1, h.2.1 e2 h2]
  exact hne

/-- C10: merging never changes the path of the target record, and every
record returned by deduplicate carries the path of one of the input records
together with that record's canonicalized manufacturer, canonicalized name
and uppercased plugin type. -/
theorem c10_dedup_in_place (aliases : List (String × String))
    (records : List PluginRecord) :
    (∀ a b : PluginRecord, (a.merge b).path = a.path) ∧
    (∀ rec ∈ deduplicate aliases records, ∃ src ∈ records,
      rec.path = src.path ∧
      rec.manufacturer = normalizeManufacturer aliases src.manufacturer (some src.name) ∧
      rec.name = normalizePluginName src.name ∧
      rec.plugin_type = pyUpper src.plugin_type) := by
  constructor
  · intro a b
    rfl
  · have h := dedup_fold_inv aliases (fun src => src ∈ records) records []
      (fun _ hr => hr) List.Pairwise.nil
      (fun e he => absurd he (List.not_mem_nil e))
      (fun e he => absurd he (List.not_mem_nil e))
    intro rec hrec
    unfold deduplicate at hrec
    obtain ⟨e, he, hfe⟩ := List.mem_map.mp hrec
    subst hfe
    obtain ⟨src, hs, hpath, hm, hn, ht⟩ := h.2.2 e he
    exact ⟨src, hs, hpath, hm, hn, ht⟩

/-- Witness for C10: deduplicating the single raw record yields its
canonicalized form with the original path. -/
theorem c10_dedup_in_place_witness :
    ∃ src ∈ [recRaw], recCanon.path = src.path ∧
      recCanon.manufacturer =
        normalizeManufacturer defaultAliases src.manufacturer (some src.name) ∧
      recCanon.name = normalizePluginName src.name ∧
      recCanon.plugin_type = pyUpper src.plugin_type :=
  (c10_dedup_in_place defaultAliases [recRaw]).2 recCanon (by decide)

theorem listLt_irrefl : ∀ a : List Char, listLt a a = false
  | [] => rfl
  | c :: cs => by simp [listLt, lt_irrefl c, listLt_irrefl cs]

theorem listLt_trichotomy : ∀ a b : List Char, listLt a b = true ∨ a = b ∨ listLt b a = true := by
  intro a
  induction a with
  | nil =>
    intro b
    cases b with
    | nil => exact Or.inr (Or.inl rfl)
    | cons b1 bs => exact Or.inl (by simp [listLt])
  | cons a1 as ih =>
    intro b
    cases b with
    | nil => exact Or.inr (Or.inr (by simp [listLt]))
    | cons b1 bs =>
      rcases lt_trichotomy a1 b1 with h | h | h
      · exact Or.inl (by simp [listLt, h])
      · subst h
        rcases ih bs with h2 | h2 | h2
        · exact Or.inl (by simp [listLt, lt_irrefl a1, h2])
        · exact Or.inr (Or.inl (by rw [h2]))
        · exact Or.inr (Or.inr (by simp [listLt, lt_irrefl a1, h2]))
      · exact Or.inr (Or.inr (by simp [listLt, h]))

theorem listLt_trans :
    ∀ a b c : List Char, listLt a b = true → listLt b c = true → listLt a c = true := by
  intro a
  induction a with
  | nil =>
    intro b c h1 h2
    cases c with
    | nil => cases b <;> simp [listLt] at h2
    | cons c1 cs => simp [listLt]
  | cons a1 as ih =>
    intro b c h1 h2
    cases b with
    | nil => simp [listLt] at h1
    | cons b1 bs =>
      cases c with
      | nil => simp [listLt] at h2
      | cons c1 cs =>
        simp only [listLt] at h1 h2 ⊢
        by_cases hab : a1 < b1
        · by_cases hbc : b1 < c1
          · simp [lt_trans hab hbc]
          · rw [if_neg hbc] at h2
            by_cases hbe : b1 = c1
            · subst hbe
              simp [hab]
            · rw [if_neg hbe] at h2
              exact absurd h2 (by simp)
        · rw [if_neg hab] at h1
          by_cases habe : a1 = b1
          · subst habe
            rw [if_pos rfl] at h1
            by_cases hbc : a1 < c1
            · simp [hbc]
            · rw [if_neg hbc] at h2
              by_cases hbe : a1 = c1
              · subst hbe
                rw [if_pos rfl] at h2
                rw [if_neg hbc, if_pos rfl]
                exact ih bs cs h1 h2
              · rw [if_neg hbe] at h2
                exact absurd h2 (by simp)
          · rw [if_neg habe] at h1
            exact absurd h1 (by simp)

theorem listLt_asymm :
    ∀ a b : List Char, listLt a b = true → listLt b a = true → False := by
  intro a
  induction a with
  | nil =>
    intro b h1 h2
    cases b with
    | nil => simp [listLt] at h1
    | cons b1 bs => simp [listLt] at h2
  | cons a1 as ih =>
    intro b h1 h2
    cases b with
    | nil => simp [listLt] at h1
    | cons b1 bs =>
      simp only [listLt] at h1 h2
      by_cases hab : a1 < b1
      · have hne : ¬ b1 = a1 := by
          intro he
          subst he
          exact absurd hab (lt_irrefl b1)
        rw [if_neg (lt_asymm hab), if_neg hne] at h2
        exact absurd h2 (by simp)
      · rw [if_neg hab] at h1
        by_cases habe : a1 = b1
        · subst habe
          rw [if_pos rfl] at h1
          rw [if_neg hab, if_pos rfl] at h2
          exact ih bs h1 h2
        · rw [if_neg habe] at h1
          exact absurd h1 (by simp)

theorem strLt_trichotomy (a b : String) : strLt a b = true ∨ a = b ∨ strLt b a = true := by
  rcases listLt_trichotomy a.data b.data with h | h | h
  · exact Or.inl h
  · exact Or.inr (Or.inl (String.ext h))
  · exact Or.inr (Or.inr h)

theorem strLt_trans {a b c : String} (h1 : strLt a b = true) (h2 : strLt b c = true) :
    strLt a c = true :=
  listLt_trans a.data b.data c.data h1 h2

theorem strLt_asymm {a b : String} (h1 : strLt a b = true) (h2 : strLt b a = true) : False :=
  listLt_asymm a.data b.data h1 h2

theorem strLt_irrefl (a : String) : strLt a a = false :=
  listLt_irrefl a.data

instance : IsTotal PluginInfo catalogLe := by
  constructor
  intro a b
  unfold catalogLe
  rcases strLt_trichotomy (sortKey a).1 (sortKey b).1 with h | h | h
  · exact Or.inl (Or.inl h)
  · rcases strLt_trichotomy (sortKey a).2 (sortKey b).2 with h2 | h2 | h2
    · exact Or.inl (Or.inr ⟨h, Or.inl h2⟩)
    · exact Or.inl (Or.inr ⟨h, Or.inr h2⟩)
    · exact Or.inr (Or.inr ⟨h.symm, Or.inl h2⟩)
  · exact Or.inr (Or.inl h)

instance : IsTrans PluginInfo catalogLe := by
  constructor
  intro a b c hab hbc
  unfold catalogLe at *
  rcases hab with h1 | ⟨h1, h1b⟩
  · rcases hbc with h2 | ⟨h2, _⟩
    · exact Or.inl (strLt_trans h1 h2)
    · exact Or.inl (by rw [← h2]; exact h1)
  · rcases hbc with h2 | ⟨h2, h2b⟩
    · exact Or.inl (by rw [h1]; exact h2)
    · refine Or.inr ⟨h1.trans h2, ?_⟩
      rcases h1b with hb | hb
      · rcases h2b with hc | hc
        · exact Or.inl (strLt_trans hb hc)
        · exact Or.inl (by rw [← hc]; exact hb)
      · rcases h2b with hc | hc
        · exact Or.inl (by rw [hb]; exact hc)
        · exact Or.inr (hb.trans hc)

instance : IsAntisymm PluginInfo catalogLt := by
  constructor
  intro a b h1 h2
  exfalso
  unfold catalogLt at *
  rcases h1 with h1 | ⟨h1, h1b⟩
  · rcases h2 with h2 | ⟨h2, _⟩
    · exact strLt_asymm h1 h2
    · rw [h2] at h1
      rw [strLt_irrefl] at h1
      exact absurd h1 (by simp)
  · rcases h2 with h2 | ⟨_, h2b⟩
    · rw [h1] at h2
      rw [strLt_irrefl] at h2
      exact absurd h2 (by simp)
    · exact strLt_asymm h1b h2b

/-- Invariant of the first-wins deduplication fold of scan_all_plugins. -/
theorem uniqueByKey_inv (ps : List PluginInfo) :
    ∀ acc, List.Pairwise (fun a b => aggKey a ≠ aggKey b) acc →
    List.Pairwise (fun a b => aggKey a ≠ aggKey b)
      (ps.foldl (fun acc p =>
        if acc.any (fun q => aggKey q = aggKey p) then acc else acc ++ [p]) acc) ∧
    (∀ q ∈ ps.foldl (fun acc p =>
        if acc.any (fun q => aggKey q = aggKey p) then acc else acc ++ [p]) acc,
      q ∈ acc ∨ q ∈ ps) ∧
    (∀ p, (p ∈ acc ∨ p ∈ ps) →
      ∃ q ∈ ps.foldl (fun acc p =>
          if acc.any (fun q => aggKey q = aggKey p) then acc else acc ++ [p]) acc,
        aggKey q = aggKey p) := by
  induction ps with
  | nil =>
    intro acc hP
    refine ⟨hP, fun q hq => Or.inl hq, fun p hp => ?_⟩
    rcases hp with h | h
    · exact ⟨p, h, rfl⟩
    · exact absurd h (List.not_mem_nil p)
  | cons p rest ih =>
    intro acc hP
    rw [List.foldl_cons]
    by_cases hmem : (acc.any (fun q => decide (aggKey q = aggKey p))) = true
    · rw [if_pos hmem]
      obtain ⟨q0, hq0, hq0k⟩ := List.any_eq_true.mp hmem
      rw [decide_eq_true_iff] at hq0k
      obtain ⟨ihP, ihSub, ihCover⟩ := ih acc hP
      refine ⟨ihP, ?_, ?_⟩
      · intro q hq
        rcases ihSub q hq with h | h
        · exact Or.inl h
        · exact Or.inr (List.mem_cons_of_mem p h)
      · intro x hx
        rcases hx with h | h
        · exact ihCover x (Or.inl h)
        · rcases List.mem_cons.mp h with h | h
          · subst h
            obtain ⟨q, hq, hqk⟩ := ihCover q0 (Or.inl hq0)
            exact ⟨q, hq, hqk.trans hq0k⟩
          · exact ihCover x (Or.inr h)
    · rw [if_neg hmem]
      have hfalse : (acc.any (fun q => decide (aggKey q = aggKey p))) = false := by
        revert hmem
        cases acc.any (fun q => decide (aggKey q = aggKey p)) <;> simp
      have hnotin : ∀ q ∈ acc, aggKey q ≠ aggKey p := by
        intro q hq
        have := List.any_eq_false.mp hfalse q hq
        simpa using this
      have hP' : List.Pairwise (fun a b => aggKey a ≠ aggKey b) (acc ++ [p]) := by
        rw [List.pairwise_append]
        refine ⟨hP, List.pairwise_singleton _ _, ?_⟩
        intro a ha b hb
        rw [List.mem_singleton] at hb
        subst hb
        exact hnotin a ha
      obtain ⟨ihP, ihSub, ihCover⟩ := ih (acc ++ [p]) hP'
      refine ⟨ihP, ?_, ?_⟩
      · intro q hq
        rcases ihSub q hq with h | h
        · rcases List.mem_append.mp h with h | h
          · exact Or.inl h
          · rw [List.mem_singleton] at h
            subst h
            exact Or.inr (List.mem_cons_self _ _)
        · exact Or.inr (List.mem_cons_of_mem p h)
      · intro x hx
        rcases hx with h | h
        · exact ihCover x (Or.inl (List.mem_append.mpr (Or.inl h)))
        · rcases List.mem_cons.mp h with h | h
          · subst h
            exact ihCover x (Or.inl (List.mem_append.mpr (Or.inr (List.mem_singleton.mpr rfl))))
          · exact ihCover x (Or.inr h)

/-- Records retained by uniqueByKey are input records, every input key is
represented, and the retained keys are pairwise distinct. -/
theorem uniqueByKey_spec (ps : List PluginInfo) :
    List.Pairwise (fun a b => aggKey a ≠ aggKey b) (uniqueByKey ps) ∧
    (∀ q ∈ uniqueByKey ps, q ∈ ps) ∧
    (∀ p ∈ ps, ∃ q ∈ uniqueByKey ps, aggKey q = aggKey p) := by
  obtain ⟨hP, hSub, hCover⟩ := uniqueByKey_inv ps [] List.Pairwise.nil
  refine ⟨hP, ?_, ?_⟩
  · intro q hq
    rcases hSub q hq with h | h
    · exact absurd h (List.not_mem_nil q)
    · exact h
  · intro p hp
    exact hCover p (Or.inr hp)

/-- Membership in the aggregated catalog coincides with membership in the
input when equal dedup keys force equal records. -/
theorem mem_aggregate_iff (ps : List PluginInfo)
    (hKey : ∀ a ∈ ps, ∀ b ∈ ps, aggKey a = aggKey b → a = b) (p : PluginInfo) :
    p ∈ aggregate ps ↔ p ∈ ps := by
  unfold aggregate
  rw [List.mem_insertionSort]
  constructor
  · exact fun h => (uniqueByKey_spec ps).2.1 p h
  · intro hp
    obtain ⟨q, hq, hqk⟩ := (uniqueByKey_spec ps).2.2 p hp
    have hqmem : q ∈ ps := (uniqueByKey_spec ps).2.1 q hq
    rw [hKey q hqmem p hp hqk] at hq
    exact hq

/-- The aggregated catalog has no duplicate records. -/
theorem aggregate_nodup (ps : List PluginInfo) : (aggregate ps).Nodup := by
  unfold aggregate
  rw [(List.perm_insertionSort catalogLe (uniqueByKey ps)).nodup_iff]
  have hP := (uniqueByKey_spec ps).1
  exact hP.imp (fun h => fun he => h (he ▸ rfl))

/-- The aggregated catalog is sorted by the catalog ordering. -/
theorem aggregate_sorted (ps : List PluginInfo) :
    List.Sorted catalogLe (aggregate ps) :=
  List.sorted_insertionSort catalogLe (uniqueByKey ps)

/-- With pairwise distinct sort keys the aggregated catalog is strictly
sorted. -/
theorem aggregate_sorted_strict (ps : List PluginInfo)
    (hSort : ∀ a ∈ ps, ∀ b ∈ ps, sortKey a = sortKey b → a = b) :
    List.Sorted catalogLt (aggregate ps) := by
  have hsorted := aggregate_sorted ps
  have hnd := aggregate_nodup ps
  have hmem : ∀ a ∈ aggregate ps, a ∈ ps := by
    intro a ha
    unfold aggregate at ha
    rw [List.mem_insertionSort] at ha
    exact (uniqueByKey_spec ps).2.1 a ha
  unfold List.Sorted at *
  have hand := hsorted.and hnd
  apply hand.imp_of_mem
  intro a b ha hb hab
  obtain ⟨hle, hne⟩ := hab
  unfold catalogLe at hle
  unfold catalogLt
  rcases hle with h | ⟨h1, h2⟩
  · exact Or.inl h
  · rcases h2 with h2 | h2
    · exact Or.inr ⟨h1, h2⟩
    · exfalso
      apply hne
      apply hSort a (hmem a ha) b (hmem b hb)
      exact Prod.ext h1 h2

/-- C8 (amended): when any two input records sharing the dedup key are
identical and any two distinct input records have distinct sort keys, the
final aggregation yields the same catalog for every permutation of the
input, sorted by lowercased manufacturer then lowercased name, containing
exactly the input records. -/
theorem c8_deterministic_order (xs ys : List PluginInfo) (hperm : xs.Perm ys)
    (hKey : ∀ a ∈ xs, ∀ b ∈ xs, aggKey a = aggKey b → a = b)
    (hSort : ∀ a ∈ xs, ∀ b ∈ xs, sortKey a = sortKey b → a = b) :
    aggregate xs = aggregate ys ∧
    List.Sorted catalogLe (aggregate xs) ∧
    (∀ p, p ∈ aggregate xs ↔ p ∈ xs) := by
  have hKey' : ∀ a ∈ ys, ∀ b ∈ ys, aggKey a = aggKey b → a = b := by
    intro a ha b hb
    exact hKey a (hperm.mem_iff.mpr ha) b (hperm.mem_iff.mpr hb)
  have hSort' : ∀ a ∈ ys, ∀ b ∈ ys, sortKey a = sortKey b → a = b := by
    intro a ha b hb
    exact hSort a (hperm.mem_iff.mpr ha) b (hperm.mem_iff.mpr hb)
  have hpermagg : (aggregate xs).Perm (aggregate ys) := by
    rw [List.perm_ext_iff_of_nodup (aggregate_nodup xs) (aggregate_nodup ys)]
    intro a
    rw [mem_aggregate_iff xs hKey a, mem_aggregate_iff ys hKey' a]
    exact hperm.mem_iff
  refine ⟨?_, aggregate_sorted xs, fun p => mem_aggregate_iff xs hKey p⟩
  exact List.eq_of_perm_of_sorted hpermagg
    (aggregate_sorted_strict xs hSort) (aggregate_sorted_strict ys hSort')

/-- Witness for C8: two records with distinct keys aggregate to the same
sorted catalog from either input order. -/
theorem c8_deterministic_order_witness :
    aggregate [infoA, infoB] = aggregate [infoB, infoA] ∧
    List.Sorted catalogLe (aggregate [infoA, infoB]) ∧
    aggregate [infoA, infoB] = [infoA, infoB] := by
  have hmem : ∀ a ∈ [infoA, infoB], a = infoA ∨ a = infoB := by
    intro a ha
    rcases List.mem_cons.mp ha with h | h
    · exact Or.inl h
    · rw [List.mem_singleton] at h
      exact Or.inr h
  have hKey : ∀ a ∈ [infoA, infoB], ∀ b ∈ [infoA, infoB],
      aggKey a = aggKey b → a = b := by
    intro a ha b hb hk
    rcases hmem a ha with rfl | rfl <;> rcases hmem b hb with rfl | rfl <;>
      first | rfl | (exfalso; revert hk; decide)
  have hSort : ∀ a ∈ [infoA, infoB], ∀ b ∈ [infoA, infoB],
      sortKey a = sortKey b → a = b := by
    intro a ha b hb hk
    rcases hmem a ha with rfl | rfl <;> rcases hmem b hb with rfl | rfl <;>
      first | rfl | (exfalso; revert hk; decide)
  have h := c8_deterministic_order [infoA, infoB] [infoB, infoA]
    (List.Perm.swap infoB infoA []) hKey hSort
  exact ⟨h.1, h.2.1, by decide⟩

/-- Counterexample for C8 as stated: two records sharing the dedup key but
naming different manufacturers aggregate to different catalogs under the
two input orders, so the output is not independent of collection order for
every multiset. -/
theorem c8_counterexample :
    [infoAcme, infoZorro].Perm [infoZorro, infoAcme] ∧
    aggregate [infoAcme, infoZorro] = [infoAcme] ∧
    aggregate [infoZorro, infoAcme] = [infoZorro] ∧
    aggregate [infoAcme, infoZorro] ≠ aggregate [infoZorro, infoAcme] := by
  refine ⟨List.Perm.swap infoZorro infoAcme [], by decide, by decide, by decide⟩

instance : IsTotal String headingLe := by
  constructor
  intro a b
  unfold headingLe
  rcases strLt_trichotomy a b with h | h | h
  · exact Or.inl (Or.inl h)
  · exact Or.inl (Or.inr h)
  · exact Or.inr (Or.inl h)

instance : IsTrans String headingLe := by
  constructor
  intro a b c hab hbc
  unfold headingLe at *
  rcases hab with h1 | h1
  · rcases hbc with h2 | h2
    · exact Or.inl (strLt_trans h1 h2)
    · exact Or.inl (by rw [← h2]; exact h1)
  · rcases hbc with h2 | h2
    · exact Or.inl (by rw [h1]; exact h2)
    · exact Or.inr (h1.trans h2)

instance : IsTotal PluginRecord entryLe := by
  constructor
  intro a b
  unfold entryLe
  rcases strLt_trichotomy (pyLower a.name) (pyLower b.name) with h | h | h
  · exact Or.inl (Or.inl h)
  · rcases strLt_trichotomy a.plugin_type b.plugin_type with h2 | h2 | h2
    · exact Or.inl (Or.inr ⟨h, Or.inl h2⟩)
    · exact Or.inl (Or.inr ⟨h, Or.inr h2⟩)
    · exact Or.inr (Or.inr ⟨h.symm, Or.inl h2⟩)
  · exact Or.inr (Or.inl h)

instance : IsTrans PluginRecord entryLe := by
  constructor
  intro a b c hab hbc
  unfold entryLe at *
  rcases hab with h1 | ⟨h1, h1b⟩
  · rcases hbc with h2 | ⟨h2, _⟩
    · exact Or.inl (strLt_trans h1 h2)
    · exact Or.inl (by rw [← h2]; exact h1)
  · rcases hbc with h2 | ⟨h2, h2b⟩
    · exact Or.inl (by rw [h1]; exact h2)
    · refine Or.inr ⟨h1.trans h2, ?_⟩
      rcases h1b with hb | hb
      · rcases h2b with hc | hc
        · exact Or.inl (strLt_trans hb hc)
        · exact Or.inl (by rw [← hc]; exact hb)
      · rcases h2b with hc | hc
        · exact Or.inl (by rw [hb]; exact hc)
        · exact Or.inr (hb.trans hc)

/-- Updating the group of one manufacturer leaves every other group
unchanged. -/
theorem groupOf_update_ne (r : PluginRecord) (m : String) (hne : m ≠ r.manufacturer) :
    ∀ acc : List (String × List PluginRecord),
    groupOf (acc.map (fun p =>
      if p.1 = r.manufacturer then (p.1, p.2 ++ [r]) else p)) m = groupOf acc m := by
  intro acc
  induction acc with
  | nil => rfl
  | cons e tail ih =>
    rw [List.map_cons]
    by_cases hem : e.1 = m
    · have her : ¬ e.1 = r.manufacturer := by
        rw [hem]
        exact hne
      rw [if_neg her]
      unfold groupOf
      rw [List.find?_cons_of_pos _ (by simpa using hem),
        List.find?_cons_of_pos _ (by simpa using hem)]
    · have hfst : ((if e.1 = r.manufacturer then (e.1, e.2 ++ [r]) else e) :
          String × List PluginRecord).1 = e.1 := by
        split <;> rfl
      unfold groupOf at ih ⊢
      rw [List.find?_cons_of_neg _ (by simp [hfst, hem]),
        List.find?_cons_of_neg _ (by simpa using hem)]
      exact ih

/-- Updating the group of a manufacturer already present appends the new
record to that group. -/
theorem groupOf_update_eq (r : PluginRecord) :
    ∀ acc : List (String × List PluginRecord),
    r.manufacturer ∈ acc.map (·.1) →
    groupOf (acc.map (fun p =>
      if p.1 = r.manufacturer then (p.1, p.2 ++ [r]) else p)) r.manufacturer =
      groupOf acc r.manufacturer ++ [r] := by
  intro acc
  induction acc with
  | nil => intro h; simp at h
  | cons e tail ih =>
    intro h
    rw [List.map_cons]
    by_cases hem : e.1 = r.manufacturer
    · rw [if_pos hem]
      unfold groupOf
      rw [List.find?_cons_of_pos _ (by simpa using hem),
        List.find?_cons_of_pos _ (by simpa using hem)]
      rfl
    · rw [if_neg hem]
      have h' : r.manufacturer ∈ tail.map (·.1) := by
        rcases List.mem_map.mp h with ⟨p, hp, hp1⟩
        rcases List.mem_cons.mp hp with hp | hp
        · exact absurd (hp ▸ hp1) hem
        · exact List.mem_map.mpr ⟨p, hp, hp1⟩
      unfold groupOf at ih ⊢
      rw [List.find?_cons_of_neg _ (by simpa using hem),
        List.find?_cons_of_neg _ (by simpa using hem)]
      exact ih h'

/-- Appending a fresh group changes only the group of its manufacturer. -/
theorem groupOf_append_new (r : PluginRecord) (m : String) :
    ∀ acc : List (String × List PluginRecord),
    ¬ r.manufacturer ∈ acc.map (·.1) →
    groupOf (acc ++ [(r.manufacturer, [r])]) m =
      groupOf acc m ++ (if r.manufacturer = m then [r] else []) := by
  intro acc
  induction acc with
  | nil =>
    intro _
    unfold groupOf
    by_cases h : r.manufacturer = m
    · rw [if_pos h]
      rw [List.nil_append, List.find?_cons_of_pos _ (by simpa using h)]
      rfl
    · rw [if_neg h]
      rw [List.nil_append, List.find?_cons_of_neg _ (by simpa using h)]
      rfl
  | cons e tail ih =>
    intro hmem
    have hmem1 : ¬ r.manufacturer = e.1 := by
      intro he
      apply hmem
      rw [List.map_cons, he]
      exact List.mem_cons_self _ _
    have hmem2 : ¬ r.manufacturer ∈ tail.map (·.1) := by
      intro he
      exact hmem (by rw [List.map_cons]; exact List.mem_cons_of_mem _ he)
    rw [List.cons_append]
    by_cases hem : e.1 = m
    · have hrm : ¬ r.manufacturer = m := by
        intro he
        exact hmem1 (he.trans hem.symm)
      rw [if_neg hrm]
      unfold groupOf
      rw [List.find?_cons_of_pos _ (by simpa using hem),
        List.find?_cons_of_pos _ (by simpa using hem)]
      simp
    · unfold groupOf at ih ⊢
      rw [List.find?_cons_of_neg _ (by simpa using hem),
        List.find?_cons_of_neg _ (by simpa using hem)]
      exact ih hmem2

/-- One grouping step appends the record to the group of its manufacturer
and leaves every other group unchanged. -/
theorem groupOf_step (acc : List (String × List PluginRecord)) (r : PluginRecord)
    (m : String) :
    groupOf (groupStep acc r) m =
      groupOf acc m ++ (if r.manufacturer = m then [r] else []) := by
  unfold groupStep
  by_cases hmem : (acc.any (fun p => decide (p.1 = r.manufacturer))) = true
  · rw [if_pos hmem]
    have hkeys : r.manufacturer ∈ acc.map (·.1) := by
      obtain ⟨p, hp, hpk⟩ := List.any_eq_true.mp hmem
      rw [decide_eq_true_iff] at hpk
      exact List.mem_map.mpr ⟨p, hp, hpk⟩
    by_cases hm : r.manufacturer = m
    · subst hm
      rw [if_pos rfl]
      exact groupOf_update_eq r acc hkeys
    · rw [if_neg hm]
      rw [groupOf_update_ne r m (fun he => hm he.symm) acc]
      simp
  · rw [if_neg hmem]
    have hfalse : (acc.any (fun p => decide (p.1 = r.manufacturer))) = false := by
      revert hmem
      cases acc.any (fun p => decide (p.1 = r.manufacturer)) <;> simp
    have hnotin : ¬ r.manufacturer ∈ acc.map (·.1) := by
      intro he
      rcases List.mem_map.mp he with ⟨p, hp, hp1⟩
      have := List.any_eq_false.mp hfalse p hp
      simp [hp1] at this
    exact groupOf_append_new r m acc hnotin

/-- The group of a manufacturer after the whole fold is the filter of the
processed records with that manufacturer. -/
theorem groupOf_fold (rs : List PluginRecord) :
    ∀ (acc : List (String × List PluginRecord)) (m : String),
    groupOf (rs.foldl groupStep acc) m =
      groupOf acc m ++ rs.filter (fun r => r.manufacturer = m) := by
  induction rs with
  | nil =>
    intro acc m
    simp
  | cons r rest ih =>
    intro acc m
    rw [List.foldl_cons, ih (groupStep acc r) m, groupOf_step acc r m, List.filter_cons]
    by_cases h : r.manufacturer = m
    · rw [if_pos h, if_pos (show decide (r.manufacturer = m) = true by simpa using h),
        List.append_assoc]
      rfl
    · rw [if_neg h, if_neg (show ¬ decide (r.manufacturer = m) = true by simpa using h)]
      simp

/-- One grouping step inserts the manufacturer into the key list exactly
when it is new. -/
theorem groupStep_keys (acc : List (String × List PluginRecord)) (r : PluginRecord) :
    (groupStep acc r).map (·.1) =
      (if r.manufacturer ∈ acc.map (·.1) then acc.map (·.1)
       else acc.map (·.1) ++ [r.manufacturer]) := by
  unfold groupStep
  by_cases hmem : (acc.any (fun p => decide (p.1 = r.manufacturer))) = true
  · have hkeys : r.manufacturer ∈ acc.map (·.1) := by
      obtain ⟨p, hp, hpk⟩ := List.any_eq_true.mp hmem
      rw [decide_eq_true_iff] at hpk
      exact List.mem_map.mpr ⟨p, hp, hpk⟩
    rw [if_pos hmem, if_pos hkeys, List.map_map]
    apply List.map_congr_left
    intro e _
    show ((if e.1 = r.manufacturer then (e.1, e.2 ++ [r]) else e) :
      String × List PluginRecord).1 = e.1
    split <;> rfl
  · rw [if_neg hmem]
    have hfalse : (acc.any (fun p => decide (p.1 = r.manufacturer))) = false := by
      revert hmem
      cases acc.any (fun p => decide (p.1 = r.manufacturer)) <;> simp
    have hnotin : ¬ r.manufacturer ∈ acc.map (·.1) := by
      intro he
      rcases List.mem_map.mp he with ⟨p, hp, hp1⟩
      have := List.any_eq_false.mp hfalse p hp
      simp [hp1] at this
    rw [if_neg hnotin, List.map_append]
    rfl

/-- The key list of the grouping fold is the first-occurrence fold of the
manufacturer list. -/
theorem groupKeys_fold (rs : List PluginRecord) :
    ∀ acc : List (String × List PluginRecord),
    (rs.foldl groupStep acc).map (·.1) =
      (rs.map (·.manufacturer)).foldl
        (fun ks m => if m ∈ ks then ks else ks ++ [m]) (acc.map (·.1)) := by
  induction rs with
  | nil => intro acc; rfl
  | cons r rest ih =>
    intro acc
    rw [List.foldl_cons, List.map_cons, List.foldl_cons, ih (groupStep acc r),
      groupStep_keys acc r]

/-- The first-occurrence fold keeps its accumulator without duplicates and
covers exactly the seen elements. -/
theorem firstOccur_inv (l : List String) :
    ∀ acc : List String, acc.Nodup →
    (l.foldl (fun acc m => if m ∈ acc then acc else acc ++ [m]) acc).Nodup ∧
    (∀ m, m ∈ l.foldl (fun acc m => if m ∈ acc then acc else acc ++ [m]) acc ↔
      (m ∈ acc ∨ m ∈ l)) := by
  induction l with
  | nil =>
    intro acc h
    refine ⟨h, fun m => ?_⟩
    simp
  | cons x rest ih =>
    intro acc h
    rw [List.foldl_cons]
    by_cases hx : x ∈ acc
    · rw [if_pos hx]
      obtain ⟨ihN, ihM⟩ := ih acc h
      refine ⟨ihN, fun m => ?_⟩
      rw [ihM m]
      constructor
      · rintro (hm | hm)
        · exact Or.inl hm
        · exact Or.inr (List.mem_cons_of_mem x hm)
      · rintro (hm | hm)
        · exact Or.inl hm
        · rcases List.mem_cons.mp hm with hm | hm
          · subst hm
            exact Or.inl hx
          · exact Or.inr hm
    · rw [if_neg hx]
      have h' : (acc ++ [x]).Nodup := by
        rw [List.nodup_append]
        refine ⟨h, List.nodup_singleton x, ?_⟩
        intro a ha hax
        rw [List.mem_singleton] at hax
        subst hax
        exact hx ha
      obtain ⟨ihN, ihM⟩ := ih (acc ++ [x]) h'
      refine ⟨ihN, fun m => ?_⟩
      rw [ihM m]
      constructor
      · rintro (hm | hm)
        · rcases List.mem_append.mp hm with hm | hm
          · exact Or.inl hm
          · rw [List.mem_singleton] at hm
            subst hm
            exact Or.inr (List.mem_cons_self _ _)
        · exact Or.inr (List.mem_cons_of_mem x hm)
      · rintro (hm | hm)
        · exact Or.inl (List.mem_append.mpr (Or.inl hm))
        · rcases List.mem_cons.mp hm with hm | hm
          · subst hm
            exact Or.inl (List.mem_append.mpr (Or.inr (List.mem_singleton.mpr rfl)))
          · exact Or.inr hm

/-- C9 (amended): the report line list consists of one heading per distinct
manufacturer, headings sorted without duplicates, followed within each
group by one line of the form dash name, parenthesised type, optional
version, double colon path per record of that manufacturer, sorted by
lowercased name and then type, and a blank line after each group. -/
theorem c9_report_format (rs : List PluginRecord) :
    writeLines rs =
      ((firstOccur (rs.map (·.manufacturer))).insertionSort headingLe).flatMap
        (fun m => ("[" ++ m ++ "]") ::
          ((rs.filter (fun r => r.manufacturer = m)).insertionSort entryLe).map lineOf
          ++ [""]) ∧
    List.Sorted headingLe
      ((firstOccur (rs.map (·.manufacturer))).insertionSort headingLe) ∧
    ((firstOccur (rs.map (·.manufacturer))).insertionSort headingLe).Nodup ∧
    (∀ m, m ∈ (firstOccur (rs.map (·.manufacturer))).insertionSort headingLe ↔
      m ∈ rs.map (·.manufacturer)) := by
  have hkeys : (groupByMfr rs).map (·.1) = firstOccur (rs.map (·.manufacturer)) :=
    groupKeys_fold rs []
  have hgroups : ∀ m, groupOf (groupByMfr rs) m =
      rs.filter (fun r => r.manufacturer = m) := by
    intro m
    unfold groupByMfr
    rw [groupOf_fold rs [] m]
    rfl
  have hfo := firstOccur_inv (rs.map (·.manufacturer)) [] List.nodup_nil
  have hfoM : ∀ m, m ∈ firstOccur (rs.map (·.manufacturer)) ↔
      m ∈ rs.map (·.manufacturer) := by
    intro m
    unfold firstOccur
    rw [hfo.2 m]
    simp
  refine ⟨?_, List.sorted_insertionSort headingLe _, ?_, ?_⟩
  · rw [show writeLines rs =
        (((groupByMfr rs).map (·.1)).insertionSort headingLe).flatMap
          (fun m => ("[" ++ m ++ "]") ::
            ((groupOf (groupByMfr rs) m).insertionSort entryLe).map lineOf ++ [""])
      from rfl]
    rw [hkeys]
    congr 1
    funext m
    rw [hgroups m]
  · rw [(List.perm_insertionSort headingLe _).nodup_iff]
    exact hfo.1
  · intro m
    rw [List.mem_insertionSort]
    exact hfoM m

/-- Counterexample for C9 as stated: entries are emitted sorted by
lowercased name, not by raw name: the record named Zeta sorts after the
record named alpha in the report, while the spec ordering by raw name and
type puts Zeta first. -/
theorem c9_counterexample :
    writeLines [recZeta, recAlpha] =
      ["[M]", "- alpha (VST2) :: pa", "- Zeta (VST2) :: pz", ""] ∧
    (specSortedEntries [recZeta, recAlpha]).map lineOf =
      ["- Zeta (VST2) :: pz", "- alpha (VST2) :: pa"] ∧
    ("- Zeta (VST2) :: pz" : String) ≠ "- alpha (VST2) :: pa" := by
  decide

end VST
